import Mathlib

/-!
Verification development for the ai_chat_tools conversation/tool-calling core
(itshen/alice_ai).  The Python sources are shallowly embedded as executable
Lean definitions: text is modelled as lists of characters, Python dicts as
association lists, raised exceptions as the error side of Except, and the
wall clock as an explicit natural-number millisecond parameter.  Definitions
follow the corresponding Python functions statement by statement; points where
the embedding abstracts (console printing, the database, provider HTTP calls)
are noted in the doc comments of the affected definitions.
-/

set_option maxRecDepth 10000

namespace AliceAI

/-- Text is modelled as a list of characters (one entry per Unicode code
point, matching Python string indexing and len). -/
abbrev Chars := List Char

/-- Whitespace test matching the ASCII part of Python str.strip and of the
regex class backslash-s (space, tab, newline, carriage return, vertical tab,
form feed).  Non-ASCII Unicode whitespace is not modelled; no text handled by
the embedded code contains it. -/
def pySpace (c : Char) : Bool :=
  c = ' ' || c = '\t' || c = '\n' || c = '\r' || c = '\x0b' || c = '\x0c'

/-- Python str.strip:  drop whitespace from both ends. -/
def pyStrip (s : Chars) : Chars :=
  ((s.dropWhile pySpace).reverse.dropWhile pySpace).reverse

/-- Leftmost occurrence search: returns the text before the first occurrence
of pat and the text after it, or none when pat does not occur.  This is the
building block used to embed the non-greedy regex searches of the source. -/
def findSub (pat : Chars) : Chars → Option (Chars × Chars)
  | [] => if pat.isEmpty then some ([], []) else none
  | c :: cs =>
    if pat.isPrefixOf (c :: cs) then some ([], (c :: cs).drop pat.length)
    else
      match findSub pat cs with
      | some (pre, suf) => some (c :: pre, suf)
      | none => none

/-- Substring containment (Python in-operator on str). -/
def containsSub (pat s : Chars) : Bool :=
  (findSub pat s).isSome

/-- Search for the leftmost segment delimited by openP and closeP and return
its content: the embedding of re.search with pattern openP(.*?)closeP under
re.DOTALL.  The leftmost regex match starts at the first occurrence of openP
that is followed by an occurrence of closeP; if the first openP is not
followed by any closeP then no later one is either, so searching from the
first openP is faithful. -/
def searchPair (openP closeP s : Chars) : Option Chars :=
  match findSub openP s with
  | none => none
  | some (_, rest) =>
    match findSub closeP rest with
    | none => none
    | some (content, _) => some content

theorem findSub_of_isPrefixOf {pat s : Chars} (h : pat.isPrefixOf s = true) (hs : s ≠ []) :
    findSub pat s = some ([], s.drop pat.length) := by
  cases s with
  | nil => exact absurd rfl hs
  | cons c cs => simp [findSub, h]

theorem containsSub_eq_false_iff {pat s : Chars} :
    containsSub pat s = false ↔ findSub pat s = none := by
  unfold containsSub
  cases h : findSub pat s <;> simp [Option.isSome]

/-- When pat occurs nowhere in xs, nor straddling any split of xs with the
appended copy, the leftmost occurrence of pat in xs ++ pat ++ ys is the
appended copy itself. -/
theorem findSub_append (pat xs ys : Chars) (hpat : pat ≠ [])
    (hno : ∀ k, k < xs.length → List.isPrefixOf pat ((xs ++ pat ++ ys).drop k) = false) :
    findSub pat (xs ++ pat ++ ys) = some (xs, ys) := by
  induction xs with
  | nil =>
    have hpre : pat.isPrefixOf (pat ++ ys) = true := by
      simp [List.isPrefixOf_iff_prefix]
    have hne : (pat ++ ys) ≠ [] := by
      intro h
      exact hpat (List.append_eq_nil.mp h).1
    rw [List.nil_append]
    rw [findSub_of_isPrefixOf hpre hne]
    simp
  | cons c cs ih =>
    have h0 := hno 0 (by simp)
    simp only [List.drop_zero] at h0
    have hcs : findSub pat (cs ++ pat ++ ys) = some (cs, ys) := by
      apply ih
      intro k hk
      have := hno (k + 1) (by simpa using Nat.succ_lt_succ hk)
      simpa using this
    simp only [List.cons_append] at h0 ⊢
    unfold findSub
    rw [h0, hcs]
    simp

/-- JSON values as produced by Python json.loads.  Integers are kept exactly;
a float keeps its source lexeme (no float arithmetic is ever performed on it
by the embedded code, so re-formatting on dump is not modelled).  Object
fields keep insertion order like a Python dict; none of the embedded inputs
has duplicate keys. -/
inductive Json where
  | null : Json
  | bool (b : Bool) : Json
  | num (n : Int) : Json
  | flt (lexeme : Chars) : Json
  | str (s : Chars) : Json
  | arr (items : List Json) : Json
  | obj (fields : List (Chars × Json)) : Json

/-- JSON inter-token whitespace accepted by the Python decoder. -/
def jsonWs (c : Char) : Bool :=
  c = ' ' || c = '\t' || c = '\n' || c = '\r'

def skipWs (s : Chars) : Chars := s.dropWhile jsonWs

def isHexDigit (c : Char) : Bool :=
  c.isDigit || ('a' ≤ c && c ≤ 'f') || ('A' ≤ c && c ≤ 'F')

def hexVal (c : Char) : Nat :=
  if c.isDigit then c.toNat - 48
  else if 'a' ≤ c && c ≤ 'f' then c.toNat - 87
  else c.toNat - 55

/-- Simple escape characters accepted inside JSON strings. -/
def jsonEscChar (c : Char) : Option Char :=
  if c = '"' then some '"'
  else if c = '\\' then some '\\'
  else if c = '/' then some '/'
  else if c = 'b' then some '\x08'
  else if c = 'f' then some '\x0c'
  else if c = 'n' then some '\n'
  else if c = 'r' then some '\r'
  else if c = 't' then some '\t'
  else none

/-- Body of a JSON string after the opening quote: returns the decoded
characters and the text after the closing quote.  Like Python in strict mode,
raw control characters are rejected.  A backslash-u escape is decoded with
Char.ofNat (surrogate-pair combination is not modelled; no embedded input
uses surrogates). -/
def parseStringBody : Chars → Option (Chars × Chars)
  | [] => none
  | '"' :: rest => some ([], rest)
  | '\\' :: rest =>
    match rest with
    | [] => none
    | 'u' :: a :: b :: c :: d :: rest3 =>
      if isHexDigit a && isHexDigit b && isHexDigit c && isHexDigit d then
        match parseStringBody rest3 with
        | some (tail, r) =>
          some (Char.ofNat (hexVal a * 4096 + hexVal b * 256 + hexVal c * 16 + hexVal d) :: tail, r)
        | none => none
      else none
    | e :: rest2 =>
      match jsonEscChar e with
      | some ch =>
        match parseStringBody rest2 with
        | some (tail, r) => some (ch :: tail, r)
        | none => none
      | none => none
  | c :: rest =>
    if c.toNat < 32 then none
    else
      match parseStringBody rest with
      | some (tail, r) => some (c :: tail, r)
      | none => none

def digitsToNat (ds : Chars) : Nat :=
  ds.foldl (fun acc c => acc * 10 + (c.toNat - 48)) 0

/-- JSON number parsing (grammar: optional minus, integer part without
leading zeros, optional fraction, optional exponent).  A number with a
fraction or exponent becomes a float carrying its lexeme. -/
def parseNumber (s : Chars) : Option (Json × Chars) :=
  let (neg, s1) := match s with
    | '-' :: r => (true, r)
    | _ => (false, s)
  let (intDigits, s2) := s1.span Char.isDigit
  if intDigits = [] then none
  else if intDigits.length > 1 && intDigits.headI = '0' then none
  else
    let (fracDigits, s3) := match s2 with
      | '.' :: r => let (ds, r2) := r.span Char.isDigit
                    (some ds, r2)
      | _ => (none, s2)
    match fracDigits with
    | some [] => none
    | _ =>
      let (expDigits, s4) := match s3 with
        | 'e' :: r | 'E' :: r =>
          let r1 := match r with
            | '+' :: r2 => r2
            | '-' :: r2 => r2
            | _ => r
          let (ds, r2) := r1.span Char.isDigit
          (some ds, r2)
        | _ => (none, s3)
      match expDigits with
      | some [] => none
      | _ =>
        if fracDigits = none && expDigits = none then
          let n : Int := Int.ofNat (digitsToNat intDigits)
          some (Json.num (if neg then -n else n), s2)
        else
          some (Json.flt (s.take (s.length - s4.length)), s4)

mutual

/-- Recursive-descent JSON value parser, the embedding of the Python json
decoder.  The fuel argument only bounds recursion depth; it is always called
with enough fuel (more than the input length) to never run out. -/
def parseValue : Nat → Chars → Option (Json × Chars)
  | 0, _ => none
  | _ + 1, [] => none
  | fuel + 1, c :: cs =>
    if c = '"' then
      match parseStringBody cs with
      | some (str, r) => some (Json.str str, r)
      | none => none
    else if c = '\x7b' then
      let r1 := skipWs cs
      match r1 with
      | '\x7d' :: r2 => some (Json.obj [], r2)
      | _ =>
        match parseObjItems fuel r1 with
        | some (fs, r2) => some (Json.obj fs, r2)
        | none => none
    else if c = '[' then
      let r1 := skipWs cs
      match r1 with
      | ']' :: r2 => some (Json.arr [], r2)
      | _ =>
        match parseArrayItems fuel r1 with
        | some (xs, r2) => some (Json.arr xs, r2)
        | none => none
    else if "true".toList.isPrefixOf (c :: cs) then some (Json.bool true, cs.drop 3)
    else if "false".toList.isPrefixOf (c :: cs) then some (Json.bool false, cs.drop 4)
    else if "null".toList.isPrefixOf (c :: cs) then some (Json.null, cs.drop 3)
    else if "NaN".toList.isPrefixOf (c :: cs) then some (Json.flt "NaN".toList, cs.drop 2)
    else if "Infinity".toList.isPrefixOf (c :: cs) then some (Json.flt "Infinity".toList, cs.drop 7)
    else if "-Infinity".toList.isPrefixOf (c :: cs) then some (Json.flt "-Infinity".toList, cs.drop 8)
    else parseNumber (c :: cs)

/-- Items of a non-empty JSON array, positioned at the first item. -/
def parseArrayItems : Nat → Chars → Option (List Json × Chars)
  | 0, _ => none
  | fuel + 1, s =>
    match parseValue fuel s with
    | none => none
    | some (v, r) =>
      match skipWs r with
      | ',' :: r2 =>
        match parseArrayItems fuel (skipWs r2) with
        | some (vs, r3) => some (v :: vs, r3)
        | none => none
      | ']' :: r2 => some ([v], r2)
      | _ => none

/-- Fields of a non-empty JSON object, positioned at the first key. -/
def parseObjItems : Nat → Chars → Option (List (Chars × Json) × Chars)
  | 0, _ => none
  | fuel + 1, s =>
    match s with
    | '"' :: s1 =>
      match parseStringBody s1 with
      | none => none
      | some (key, r) =>
        match skipWs r with
        | ':' :: r2 =>
          match parseValue fuel (skipWs r2) with
          | none => none
          | some (v, r3) =>
            match skipWs r3 with
            | ',' :: r4 =>
              match parseObjItems fuel (skipWs r4) with
              | some (fs, r5) => some ((key, v) :: fs, r5)
              | none => none
            | '\x7d' :: r4 => some ([(key, v)], r4)
            | _ => none
        | _ => none
    | _ => none

end

/-- Python json.loads: parse one JSON document, allowing surrounding
whitespace, requiring the whole input to be consumed; none models a raised
JSONDecodeError. -/
def jsonParse (s : Chars) : Option Json :=
  let s1 := skipWs s
  match parseValue (s1.length + 1) s1 with
  | some (j, rest) => if skipWs rest = [] then some j else none
  | none => none

def natToChars (n : Nat) : Chars := (toString n).toList

def intToChars (n : Int) : Chars := (toString n).toList

/-- Escape one character for json.dumps with ensure_ascii=False. -/
def jsonDumpChar (c : Char) : Chars :=
  if c = '"' then "\\\"".toList
  else if c = '\\' then "\\\\".toList
  else if c = '\n' then "\\n".toList
  else if c = '\r' then "\\r".toList
  else if c = '\t' then "\\t".toList
  else if c = '\x08' then "\\b".toList
  else if c = '\x0c' then "\\f".toList
  else if c.toNat < 32 then
    "\\u00".toList ++
      [(if c.toNat / 16 < 10 then Char.ofNat (48 + c.toNat / 16) else Char.ofNat (87 + c.toNat / 16)),
       (if c.toNat % 16 < 10 then Char.ofNat (48 + c.toNat % 16) else Char.ofNat (87 + c.toNat % 16))]
  else [c]

def jsonDumpStr (s : Chars) : Chars :=
  '"' :: (s.map jsonDumpChar).flatten ++ ['"']

def joinSep (sep : Chars) : List Chars → Chars
  | [] => []
  | [x] => x
  | x :: xs => x ++ sep ++ joinSep sep xs

mutual

/-- Python json.dumps(value, ensure_ascii=False) with the default separators.
A float dumps its stored lexeme (the embedded code never dumps a float). -/
def jsonDumps : Json → Chars
  | Json.null => "null".toList
  | Json.bool true => "true".toList
  | Json.bool false => "false".toList
  | Json.num n => intToChars n
  | Json.flt lex => lex
  | Json.str s => jsonDumpStr s
  | Json.arr xs => '[' :: joinSep ", ".toList (jsonDumpsList xs) ++ [']']
  | Json.obj fs => '\x7b' :: joinSep ", ".toList (jsonDumpsFields fs) ++ ['\x7d']

def jsonDumpsList : List Json → List Chars
  | [] => []
  | x :: xs => jsonDumps x :: jsonDumpsList xs

def jsonDumpsFields : List (Chars × Json) → List Chars
  | [] => []
  | (k, v) :: fs => (jsonDumpStr k ++ ": ".toList ++ jsonDumps v) :: jsonDumpsFields fs

end

/-- Python truthiness of a decoded JSON value (bool(x)).  A float lexeme is
treated as truthy; no zero-valued float reaches a truthiness test in the
embedded code. -/
def jsonTruthy : Json → Bool
  | Json.null => false
  | Json.bool b => b
  | Json.num n => n ≠ 0
  | Json.flt _ => true
  | Json.str s => !s.isEmpty
  | Json.arr xs => !xs.isEmpty
  | Json.obj fs => !fs.isEmpty

/-- Dictionary lookup d.get(key) on a decoded JSON object; none for a missing
key or a non-object value. -/
def objGet (j : Json) (key : Chars) : Option Json :=
  match j with
  | Json.obj fs =>
    match fs.find? (fun f => f.1 = key) with
    | some f => some f.2
    | none => none
  | _ => none

/-- Membership test (key in dict) on a decoded JSON object. -/
def objHas (j : Json) (key : Chars) : Bool :=
  (objGet j key).isSome

/-- Repeated non-overlapping search (re.findall) for openL(.*?)closeL under
re.DOTALL with literal delimiters, returning the captured contents in order.
The fuel argument is always supplied larger than the input length, which
bounds the number of matches. -/
def scanLitPairs (openL closeL : Chars) : Nat → Chars → List Chars
  | 0, _ => []
  | fuel + 1, s =>
    match findSub openL s with
    | none => []
    | some (_, rest) =>
      match findSub closeL rest with
      | none => []
      | some (content, suf) => content :: scanLitPairs openL closeL fuel suf

/-- Attempt to match the regex open tag of a tool_call block, in the source
the pattern fragment tool_call open bracket then any non-gt characters then
gt, at the head of s; returns the text after the tag. -/
def matchToolCallOpen (s : Chars) : Option Chars :=
  if "<tool_call".toList.isPrefixOf s then
    match (s.drop 10).dropWhile (fun c => c ≠ '>') with
    | '>' :: r => some r
    | _ => none
  else none

/-- Position of the leftmost tool_call open tag: returns the text after it. -/
def findOpenTC : Chars → Option Chars
  | [] => none
  | c :: cs =>
    match matchToolCallOpen (c :: cs) with
    | some r => some r
    | none => findOpenTC cs

/-- Embedding of re.findall for the single tool-call block pattern of
XMLParser (open tag with attributes, non-greedy content, literal close tag).
A matched open tag with no later close tag ends the scan: no later start
position can complete a full match either, since any later open tag ends no
earlier than this one. -/
def scanToolCallBlocks : Nat → Chars → List Chars
  | 0, _ => []
  | fuel + 1, s =>
    match findOpenTC s with
    | none => []
    | some rest =>
      match findSub "</tool_call>".toList rest with
      | none => []
      | some (content, suf) => content :: scanToolCallBlocks fuel suf

/-- ASCII word characters of the regex class backslash-w.  Python also counts
non-ASCII letters; no embedded input uses non-ASCII parameter tag names. -/
def pyWordChar (c : Char) : Bool := c.isAlphanum || c = '_'

/-- Embedding of re.findall for the XML parameter pattern of XMLParser (an
open tag of word characters, non-greedy content, matching close tag via a
backreference).  On a failed match attempt the scan advances one character,
exactly as the regex engine does. -/
def scanParamPairs : Nat → Chars → List (Chars × Chars)
  | 0, _ => []
  | _ + 1, [] => []
  | fuel + 1, c :: cs =>
    if c = '<' then
      match cs.span pyWordChar with
      | (w, rest2) =>
        match w, rest2 with
        | _ :: _, '>' :: body =>
          match findSub ('<' :: '/' :: (w ++ ['>'])) body with
          | some (content, suf) => (w, content) :: scanParamPairs fuel suf
          | none => scanParamPairs fuel cs
        | _, _ => scanParamPairs fuel cs
    else scanParamPairs fuel cs

/-- Python dict assignment d[k] = v on an insertion-ordered association
list: update in place when the key exists, append otherwise. -/
def dictInsert (k : Chars) (v : Json) (d : List (Chars × Json)) : List (Chars × Json) :=
  if (d.find? (fun f => f.1 = k)).isSome then
    d.map (fun f => if f.1 = k then (k, v) else f)
  else d ++ [(k, v)]

/-- Value conversion of XMLParser for one XML parameter: booleans,
then all-digit integers, then digits-dot-digits floats, else the string. -/
def convertParamValue (v : Chars) : Json :=
  let lower := v.map Char.toLower
  if lower = "true".toList || lower = "false".toList then
    Json.bool (lower = "true".toList)
  else if !v.isEmpty && v.all Char.isDigit then
    Json.num (Int.ofNat (digitsToNat v))
  else
    match v.span Char.isDigit with
    | (d1, '.' :: d2) =>
      if !d1.isEmpty && !d2.isEmpty && d2.all Char.isDigit then Json.flt v
      else Json.str v
    | _ => Json.str v

/-- Embedding of XMLParser parsing XML-formatted parameters: collect the
parameter tags and convert each stripped value. -/
def parseXmlParameters (s : Chars) : List (Chars × Json) :=
  (scanParamPairs (s.length + 1) s).foldl
    (fun d nv => dictInsert nv.1 (convertParamValue (pyStrip nv.2)) d) []

/-- The call dictionary XMLParser builds for one parsed XML tool call. -/
def mkCallDict (toolName argumentsText : Chars) : Json :=
  Json.obj [("type".toList, Json.str "function".toList),
            ("function".toList, Json.obj
              [("name".toList, Json.str toolName),
               ("arguments".toList, Json.str argumentsText)])]

/-- Parameter content handling shared by the two parameter tags: strip, try
json.loads, and on failure fall back to the XML parameter parser. -/
def parseParamsContent (pc : Chars) : Json :=
  match jsonParse (pyStrip pc) with
  | some j => j
  | none => Json.obj (parseXmlParameters (pyStrip pc))

/-- Embedding of XMLParser parsing a single XML tool call: the content needs
a name tag; parameters come from the parameters (or parameter) tag content,
parsed as JSON or, when that raises, re-parsed as XML parameters; the
resulting dictionary is re-serialized into the arguments string.  No
statement in the Python body can raise, so the catch-all except that returns
None is dead and the embedding is total. -/
def parseSingleXmlToolCall (content : Chars) : Option Json :=
  match searchPair "<name>".toList "</name>".toList content with
  | none => none
  | some nm =>
    let toolName := pyStrip nm
    let paramsJson : Json :=
      match searchPair "<parameters>".toList "</parameters>".toList content with
      | some pc => parseParamsContent pc
      | none =>
        match searchPair "<parameter>".toList "</parameter>".toList content with
        | some pc => parseParamsContent pc
        | none => Json.obj []
    some (mkCallDict toolName (jsonDumps paramsJson))


/-- Embedding of XMLParser validation of one call dictionary: requires a
dict with a function dict holding a truthy name; an arguments value must be
a string that is empty after stripping or parses as JSON, or None, or a
dict.  Nothing in the Python body can raise, so the catch-all except that
returns False is dead. -/
def validateToolCall (j : Json) : Bool :=
  match j with
  | Json.obj _ =>
    match objGet j "function".toList with
    | some f =>
      match f with
      | Json.obj _ =>
        match objGet f "name".toList with
        | none => false
        | some nm =>
          if !jsonTruthy nm then false
          else if objHas f "arguments".toList then
            match objGet f "arguments".toList with
            | some (Json.str a) =>
              if pyStrip a = [] then true else (jsonParse a).isSome
            | some Json.null => true
            | some (Json.obj _) => true
            | _ => false
          else true
      | _ => false
    | none => false
  | _ => false

/-- Embedding of XMLParser extraction before the single-call truncation: the
calls recovered from tool_calls JSON blocks (with the XML fallback when the
block content is not JSON) followed by the calls recovered from single
tool_call blocks, each validated. -/
def collectToolCalls (text : Chars) : List Json :=
  let tcBlocks := scanLitPairs "<tool_calls>".toList "</tool_calls>".toList (text.length + 1) text
  let fromJsonPath := (tcBlocks.map (fun m =>
    match jsonParse (pyStrip m) with
    | some (Json.arr xs) => xs.filter validateToolCall
    | some j => if validateToolCall j then [j] else []
    | none =>
      ((scanToolCallBlocks (m.length + 1) m).filterMap parseSingleXmlToolCall).filter
        validateToolCall)).flatten
  let fromXmlPath := (scanToolCallBlocks (text.length + 1) text).filterMap (fun c =>
    match parseSingleXmlToolCall c with
    | some tc => if validateToolCall tc then some tc else none
    | none => none)
  fromJsonPath ++ fromXmlPath

/-- Embedding of XMLParser.extract_tool_calls including the single-call
constraint: when more than one valid call was collected only the first is
kept (the rest are discarded with a console warning, which the embedding
does not model). -/
def extractToolCalls (text : Chars) : List Json :=
  let l := collectToolCalls text
  if l.length > 1 then l.take 1 else l

mutual

/-- Python repr of a decoded JSON value (used by str() on dicts/lists when
tool parameters are rendered).  String escaping inside repr and float
re-formatting are not modelled; no claim inspects these renderings. -/
def pyRepr : Json → Chars
  | Json.null => "None".toList
  | Json.bool true => "True".toList
  | Json.bool false => "False".toList
  | Json.num n => intToChars n
  | Json.flt lex => lex
  | Json.str s => '\'' :: (s ++ ['\''])
  | Json.arr xs => '[' :: (joinSep ", ".toList (pyReprList xs) ++ [']'])
  | Json.obj fs => '\x7b' :: (joinSep ", ".toList (pyReprFields fs) ++ ['\x7d'])

/-- Renders the items of a list for pyRepr. -/
def pyReprList : List Json → List Chars
  | [] => []
  | x :: xs => pyRepr x :: pyReprList xs

/-- Renders the fields of a dict for pyRepr. -/
def pyReprFields : List (Chars × Json) → List Chars
  | [] => []
  | (k, v) :: fs => ('\'' :: (k ++ "': ".toList) ++ pyRepr v) :: pyReprFields fs

end

/-- Python str of a decoded JSON value. -/
def pyStr : Json → Chars
  | Json.str s => s
  | j => pyRepr j

/-- Error code constants of tool_manager.ErrorCodes. -/
def TOOL_NOT_FOUND : Chars := "TOOL_NOT_FOUND".toList
def PARAMETER_ERROR : Chars := "PARAMETER_ERROR".toList
def EXECUTION_ERROR : Chars := "EXECUTION_ERROR".toList
def TYPE_CONVERSION_ERROR : Chars := "TYPE_CONVERSION_ERROR".toList
def VALIDATION_ERROR : Chars := "VALIDATION_ERROR".toList

/-- Embedding of tool_manager.ToolResult.  Wall-clock fields are abstracted:
execution_time is carried as a natural number always set to zero by the
embedding and timestamp is dropped (no embedded claim observes either). -/
structure ToolResult where
  tool_name : Chars
  parameters : List (Chars × Json)
  success : Bool
  data : Chars
  error_code : Option Chars
  error_message : Option Chars
  execution_time : Nat

/-- Normal return value of a tool handler: a string, a prebuilt ToolResult,
a non-string value (carrying its str() form), or a non-string value whose
str() itself raises (carrying that error text). -/
inductive HandlerReturn where
  | hstr (s : Chars) : HandlerReturn
  | hresult (r : ToolResult) : HandlerReturn
  | hother (strForm : Chars) : HandlerReturn
  | hotherBad (errMsg : Chars) : HandlerReturn

/-- Observable behaviour of one handler invocation: a normal return or a
raised exception, split as the Python code splits it (TypeError against
every other exception class). -/
inductive HandlerOutcome where
  | returns (v : HandlerReturn) : HandlerOutcome
  | raiseTypeError (msg : Chars) : HandlerOutcome
  | raiseOther (msg : Chars) : HandlerOutcome

/-- Embedding of one registered tool entry of ToolRegistry.tools.  The
handler is modelled by its observable behaviour on the filtered keyword
arguments; sigParams lists the declared parameter names of the handler in
order (inspect.signature).  The async flag is dropped: awaiting a coroutine
and calling a plain function produce the same observable value here. -/
structure ToolInfo where
  handler : List (Chars × Json) → HandlerOutcome
  sigParams : List Chars
  description : Chars
  schema : Json
  requires_confirmation : Bool
  confirmation_category : Chars
  risk_level : Chars

/-- The registry is its name-to-tool dictionary. -/
def Registry := Chars → Option ToolInfo

/-- Embedding of the configuration keys consulted by the embedded code,
with the dotted get calls replaced by fields.  A policy field holds none
where the Python dict has no (or a falsy) entry. -/
structure Config where
  toolPolicies : Chars → Option Chars
  categoryPolicies : Chars → Option Chars
  defaultPolicy : Chars
  rememberChoices : Bool
  sessionMemory : Chars → Option Chars
  tokenOptEnabled : Bool
  filterOldToolResults : Bool
  keepRecentMessages : Nat
  filterTools : List Chars
  filterThreshold : Nat

/-- The default configuration of config.Config._load_config restricted to
the consulted keys (category policies for the four ask categories and the
allow network category, default policy ask, token optimisation on). -/
def defaultConfig : Config where
  toolPolicies := fun _ => none
  categoryPolicies := fun c =>
    if c = "file_write".toList || c = "file_delete".toList || c = "file_modify".toList
        || c = "system_command".toList then some "ask".toList
    else if c = "network_request".toList then some "allow".toList
    else none
  defaultPolicy := "ask".toList
  rememberChoices := true
  sessionMemory := fun _ => none
  tokenOptEnabled := true
  filterOldToolResults := true
  keepRecentMessages := 5
  filterTools := ["list_tool_modules".toList, "list_available_tools".toList]
  filterThreshold := 1000

/-- Embedding of Config.get_confirmation_policy: per-tool policy first, then
per-category policy, then the default policy. -/
def getConfirmationPolicy (cfg : Config) (toolName category : Chars) : Chars :=
  match cfg.toolPolicies toolName with
  | some p => p
  | none =>
    match cfg.categoryPolicies category with
    | some p => p
    | none => cfg.defaultPolicy

/-- Session-memory key tool_name underscore category. -/
def sessionKey (toolName category : Chars) : Chars :=
  toolName ++ ('_' :: category)

/-- Embedding of UserConfirmationManager.requires_confirmation. -/
def requiresUserConfirmation (cfg : Config) (toolName : Chars) (info : ToolInfo) : Bool :=
  if !info.requires_confirmation then false
  else
    let policy := getConfirmationPolicy cfg toolName info.confirmation_category
    if policy = "allow".toList || policy = "deny".toList then false
    else if cfg.rememberChoices then
      match cfg.sessionMemory (sessionKey toolName info.confirmation_category) with
      | some v =>
        if v = "allow_always".toList || v = "deny_always".toList then false else true
      | none => true
    else true

/-- Embedding of UserConfirmationManager.get_auto_decision. -/
def getAutoDecision (cfg : Config) (toolName : Chars) (info : ToolInfo) : Option Bool :=
  let policy := getConfirmationPolicy cfg toolName info.confirmation_category
  if policy = "allow".toList then some true
  else if policy = "deny".toList then some false
  else if cfg.rememberChoices then
    match cfg.sessionMemory (sessionKey toolName info.confirmation_category) with
    | some v =>
      if v = "allow_always".toList then some true
      else if v = "deny_always".toList then some false
      else none
    | none => none
  else none

/-- Confirmation id generated in UserConfirmationRequired.__init__: the tool
name, an underscore, and the current wall clock in integer milliseconds
(int(time.time() * 1000)), the latter passed in explicitly as now. -/
def mkConfirmationId (toolName : Chars) (now : Nat) : Chars :=
  toolName ++ ('_' :: natToChars now)

/-- Embedding of the UserConfirmationRequired exception payload; tool_info
is carried as the looked-up ToolInfo. -/
structure UserConfirmationRequired where
  tool_name : Chars
  tool_info : ToolInfo
  parameters : List (Chars × Json)
  confirmation_id : Chars

/-- The pending_confirmations dict of UserConfirmationManager, keyed by
confirmation id, insertion ordered. -/
abbrev PendingMap := List (Chars × UserConfirmationRequired)

/-- Dict lookup on the pending map. -/
def pmLookup (k : Chars) (m : PendingMap) : Option UserConfirmationRequired :=
  match List.find? (fun f => f.1 = k) m with
  | some f => some f.2
  | none => none

/-- Dict assignment on the pending map (update in place or append). -/
def pmInsert (k : Chars) (v : UserConfirmationRequired) (m : PendingMap) : PendingMap :=
  if (List.find? (fun f => f.1 = k) m).isSome then
    List.map (fun f => if f.1 = k then (k, v) else f) m
  else m ++ [(k, v)]

/-- Dict deletion on the pending map. -/
def pmErase (k : Chars) (m : PendingMap) : PendingMap :=
  List.filter (fun f => !(f.1 = k : Bool)) m

/-- Embedding of UserConfirmationManager.request_confirmation.  In web mode
a needed confirmation raises UserConfirmationRequired after storing it in
the pending map (the error side carries the updated map).  In command-line
mode the prompt loop is abstracted to the effective user decision cliAnswer;
the remember-my-choice variants of the prompt update session memory and
optionally the config file, which no claim observes, so those side effects
are modelled only on the web resume path (saveUserChoice). -/
def requestConfirmation (cfg : Config) (webMode : Bool) (toolName : Chars) (info : ToolInfo)
    (params : List (Chars × Json)) (cliAnswer : Bool) (now : Nat) (pending : PendingMap) :
    Except (UserConfirmationRequired × PendingMap) Bool :=
  if !requiresUserConfirmation cfg toolName info then
    match getAutoDecision cfg toolName info with
    | some b => Except.ok b
    | none => Except.ok true
  else if webMode then
    let req : UserConfirmationRequired :=
      { tool_name := toolName, tool_info := info, parameters := params,
        confirmation_id := mkConfirmationId toolName now }
    Except.error (req, pmInsert req.confirmation_id req pending)
  else
    Except.ok cliAnswer

/-- Embedding of ToolRegistry._format_tool_schema_for_error for a resolved
tool (the registry lookup is done by the caller, which only invokes it for
registered names). -/
def formatToolSchemaForError (name : Chars) (info : ToolInfo) : Chars :=
  let header := "工具 '".toList ++ name ++ "' 的正确参数格式:\n".toList
    ++ "描述: ".toList ++ info.description ++ "\n\n".toList
  let requiredList : List Json :=
    match objGet info.schema "required".toList with
    | some (Json.arr xs) => xs
    | _ => []
  match objGet info.schema "properties".toList with
  | some (Json.obj (p :: ps)) =>
    header ++ "参数说明:\n".toList ++
      ((p :: ps).map (fun f =>
        let pname := f.1
        let pinfo := f.2
        let ptype := match objGet pinfo "type".toList with
          | some t => pyStr t
          | none => "unknown".toList
        let requiredMark :=
          if requiredList.any (fun j => match j with
              | Json.str s => s = pname
              | _ => false) then " (必需)".toList else " (可选)".toList
        "  - ".toList ++ pname ++ ": ".toList ++ ptype ++ requiredMark ++ "\n".toList
        ++ (match objGet pinfo "description".toList with
            | some d => "    ".toList ++ pyStr d ++ "\n".toList
            | none => [])
        ++ (match objGet pinfo "enum".toList with
            | some (Json.arr xs) => "    可选值: ".toList ++ joinSep ", ".toList (xs.map pyStr) ++ "\n".toList
            | some j => "    可选值: ".toList ++ pyStr j ++ "\n".toList
            | none => [])
        ++ (match objGet pinfo "default".toList with
            | some d => "    默认值: ".toList ++ pyStr d ++ "\n".toList
            | none => []))).flatten
  | _ => header ++ "此工具不需要参数\n".toList

/-- Embedding of ToolRegistry._validate_and_format_result.  A prebuilt
ToolResult gets its name, parameters and execution time overwritten; a
string becomes a success; a non-string is converted with str() and logged
(success), unless str() itself raises (TYPE_CONVERSION_ERROR).  The outer
catch-all (VALIDATION_ERROR) is unreachable in the embedding because no
modelled statement raises. -/
def validateAndFormatResult (v : HandlerReturn) (toolName : Chars)
    (params : List (Chars × Json)) (t : Nat) : ToolResult :=
  match v with
  | HandlerReturn.hresult r =>
    { r with tool_name := toolName, parameters := params, execution_time := t }
  | HandlerReturn.hstr s =>
    { tool_name := toolName, parameters := params, success := true, data := s,
      error_code := none, error_message := none, execution_time := t }
  | HandlerReturn.hother s =>
    { tool_name := toolName, parameters := params, success := true, data := s,
      error_code := none, error_message := none, execution_time := t }
  | HandlerReturn.hotherBad m =>
    { tool_name := toolName, parameters := params, success := false, data := [],
      error_code := some TYPE_CONVERSION_ERROR,
      error_message := some ("工具返回值无法转换为字符串: ".toList ++ m),
      execution_time := t }

/-- Embedding of ToolRegistry._map_parameters: the keyword alias of
activate_tool_modules. -/
def mapParameters (toolName : Chars) (params : List (Chars × Json)) : List (Chars × Json) :=
  if toolName = "activate_tool_modules".toList then
    match List.find? (fun f => f.1 = "keyword".toList) params,
        List.find? (fun f => f.1 = "module_names".toList) params with
    | some kv, none =>
      List.filter (fun f => !(f.1 = "keyword".toList : Bool))
        (dictInsert "module_names".toList kv.2 params)
    | _, _ => params
  else params

/-- Parameter filtering in ToolRegistry.execute: keep, in signature order,
the supplied parameters whose names the handler declares. -/
def filterParams (sigParams : List Chars) (params : List (Chars × Json)) : List (Chars × Json) :=
  sigParams.filterMap (fun n =>
    match List.find? (fun f => f.1 = n) params with
    | some f => some (n, f.2)
    | none => none)

/-- The failed ToolResult for an unregistered name. -/
def toolNotFoundResult (name : Chars) (params : List (Chars × Json)) : ToolResult :=
  { tool_name := name, parameters := params, success := false, data := [],
    error_code := some TOOL_NOT_FOUND,
    error_message := some ("工具 ".toList ++ name ++ " 不存在".toList),
    execution_time := 0 }

/-- Invocation and result conversion shared between ToolRegistry.execute and
UserConfirmationManager.execute_confirmed_tool (the latter duplicates the
former line for line): run the handler on the filtered parameters and build
the ToolResult, converting a raised TypeError into PARAMETER_ERROR with the
schema hint and any other exception into EXECUTION_ERROR. -/
def invokeHandler (info : ToolInfo) (name : Chars) (params vp : List (Chars × Json)) : ToolResult :=
  match info.handler vp with
  | HandlerOutcome.returns v => validateAndFormatResult v name params 0
  | HandlerOutcome.raiseTypeError m =>
    { tool_name := name, parameters := params, success := false, data := [],
      error_code := some PARAMETER_ERROR,
      error_message := some ("参数错误: ".toList ++ m ++ "\n\n".toList
        ++ formatToolSchemaForError name info),
      execution_time := 0 }
  | HandlerOutcome.raiseOther m =>
    { tool_name := name, parameters := params, success := false, data := [],
      error_code := some EXECUTION_ERROR,
      error_message := some ("执行工具 ".toList ++ name ++ " 失败: ".toList ++ m),
      execution_time := 0 }

/-- Embedding of ToolRegistry.execute: resolve the tool (TOOL_NOT_FOUND when
absent), pass the confirmation gate (USER_DENIED on a refusal, exception
propagation in web mode), map and filter the parameters, invoke.  The error
side carries the pending map updated by the stored confirmation request. -/
def execute (cfg : Config) (webMode : Bool) (reg : Registry) (name : Chars)
    (params : List (Chars × Json)) (cliAnswer : Bool) (now : Nat) (pending : PendingMap) :
    Except (UserConfirmationRequired × PendingMap) (ToolResult × PendingMap) :=
  match reg name with
  | none => Except.ok (toolNotFoundResult name params, pending)
  | some info =>
    match requestConfirmation cfg webMode name info params cliAnswer now pending with
    | Except.error e => Except.error e
    | Except.ok false =>
      Except.ok ({ tool_name := name, parameters := params, success := false, data := [],
                   error_code := some "USER_DENIED".toList,
                   error_message := some "用户拒绝执行此操作".toList,
                   execution_time := 0 }, pending)
    | Except.ok true =>
      let vp := filterParams info.sigParams (mapParameters name params)
      Except.ok (invokeHandler info name params vp, pending)

/-- Functional update of the session memory dict. -/
def setSessionMemory (cfg : Config) (k v : Chars) : Config :=
  { cfg with sessionMemory := fun x => if x = k then some v else cfg.sessionMemory x }

/-- Functional update of a per-tool confirmation policy. -/
def setToolPolicy (cfg : Config) (toolName p : Chars) : Config :=
  { cfg with toolPolicies := fun x => if x = toolName then some p else cfg.toolPolicies x }

/-- Embedding of UserConfirmationManager._save_user_choice for an
allow-always or deny-always decision: record it in session memory and, in
web mode, promote it to a per-tool policy (the CLI path instead asks on the
console whether to persist; that prompt is external input and the persisted
variant is not modelled since no claim observes it). -/
def saveUserChoice (cfg : Config) (webMode : Bool) (toolName category : Chars)
    (allowAlways : Bool) : Config :=
  if !cfg.rememberChoices then cfg
  else
    let cfg1 := setSessionMemory cfg (sessionKey toolName category)
      (if allowAlways then "allow_always".toList else "deny_always".toList)
    if webMode then
      setToolPolicy cfg1 toolName (if allowAlways then "allow".toList else "deny".toList)
    else cfg1

/-- Choice strings accepted as approval by handle_confirmation_response. -/
def allowChoiceSet : List Chars :=
  ["allow".toList, "y".toList, "yes".toList, "是".toList, "同意".toList]

/-- Choice strings accepted as denial by handle_confirmation_response. -/
def denyChoiceSet : List Chars :=
  ["deny".toList, "n".toList, "no".toList, "否".toList, "拒绝".toList]

/-- Embedding of UserConfirmationManager.handle_confirmation_response: an
unknown id raises ValueError (the error side); approval keeps the pending
entry for execute_confirmed_tool; denial and invalid choices delete it; a
remembered choice updates the configuration. -/
def handleConfirmationResponse (cfg : Config) (webMode : Bool) (pending : PendingMap)
    (confirmationId choice : Chars) (rememberChoice : Bool) :
    Except Chars (Bool × PendingMap × Config) :=
  match pmLookup confirmationId pending with
  | none => Except.error ("未找到确认请求: ".toList ++ confirmationId)
  | some req =>
    if allowChoiceSet.contains choice then
      let cfg1 := if rememberChoice then
        saveUserChoice cfg webMode req.tool_name req.tool_info.confirmation_category true
        else cfg
      Except.ok (true, pending, cfg1)
    else if denyChoiceSet.contains choice then
      let cfg1 := if rememberChoice then
        saveUserChoice cfg webMode req.tool_name req.tool_info.confirmation_category false
        else cfg
      Except.ok (false, pmErase confirmationId pending, cfg1)
    else
      Except.ok (false, pmErase confirmationId pending, cfg)

/-- Embedding of UserConfirmationManager.execute_confirmed_tool: an unknown
id raises ValueError; otherwise the tool is re-invoked directly, skipping
the confirmation gate, through the same parameter mapping, filtering and
result conversion as ToolRegistry.execute; a successful result whose data
starts with the cross-mark character is rewritten into a
TOOL_EXECUTION_ERROR failure; the finally block always removes the pending
entry. -/
def executeConfirmedTool (reg : Registry) (pending : PendingMap) (confirmationId : Chars) :
    Except Chars (ToolResult × PendingMap) :=
  match pmLookup confirmationId pending with
  | none => Except.error ("未找到确认请求: ".toList ++ confirmationId)
  | some req =>
    let pending1 := pmErase confirmationId pending
    match reg req.tool_name with
    | none => Except.ok (toolNotFoundResult req.tool_name req.parameters, pending1)
    | some info =>
      let vp := filterParams info.sigParams (mapParameters req.tool_name req.parameters)
      let r := invokeHandler info req.tool_name req.parameters vp
      let r1 :=
        if r.success && !r.data.isEmpty && "❌".toList.isPrefixOf r.data then
          { r with success := false, error_code := some "TOOL_EXECUTION_ERROR".toList,
                   error_message := some r.data, data := [] }
        else r
      Except.ok (r1, pending1)

/-- Argument payload normalisation of ChatBot._execute_tool_calls combined
with the None check at the top of ToolRegistry.execute: a string is parsed
as JSON (a parse error degrades to an empty dict), a dict is used as is,
None becomes an empty dict.  A non-dict JSON payload (array, number, ...)
would flow into dict-specific Python code; no validated call produces one
except through the arguments string, and no embedded input does, so it is
modelled as an empty parameter dict. -/
def argumentsToParams (argsJ : Json) : List (Chars × Json) :=
  match argsJ with
  | Json.str s =>
    match jsonParse s with
    | some (Json.obj fs) => fs
    | _ => []
  | Json.obj fs => fs
  | _ => []

/-- One iteration of the loop body of ChatBot._execute_tool_calls: pick the
function dict (empty dict default), its name and its arguments (default
string of an empty JSON object), and call ToolRegistry.execute.  A
non-string name misses the string-keyed registry in Python; it is rendered
with str() here, which is faithful as long as no registered tool name
equals such a rendering (none does in this development).  The catch-all
except of the loop body cannot fire in the embedding because every embedded
statement is total. -/
def executeOneToolCall (cfg : Config) (webMode : Bool) (reg : Registry) (cliAnswer : Bool)
    (now : Nat) (pending : PendingMap) (call : Json) :
    Except (UserConfirmationRequired × PendingMap) (ToolResult × PendingMap) :=
  let fn := (objGet call "function".toList).getD (Json.obj [])
  let toolName := match objGet fn "name".toList with
    | some j => pyStr j
    | none => "None".toList
  let argsJ := (objGet fn "arguments".toList).getD (Json.str "\x7b\x7d".toList)
  execute cfg webMode reg toolName (argumentsToParams argsJ) cliAnswer now pending

/-- Embedding of ChatBot._execute_tool_calls: execute the calls in order,
collecting one ToolResult per call; a raised UserConfirmationRequired is
re-raised unmodified (the error side, carrying the updated pending map). -/
def executeToolCalls (cfg : Config) (webMode : Bool) (reg : Registry) (cliAnswer : Bool)
    (now : Nat) : List Json → PendingMap →
    Except (UserConfirmationRequired × PendingMap) (List ToolResult × PendingMap)
  | [], pending => Except.ok ([], pending)
  | c :: cs, pending =>
    match executeOneToolCall cfg webMode reg cliAnswer now pending c with
    | Except.error e => Except.error e
    | Except.ok (r, p1) =>
      match executeToolCalls cfg webMode reg cliAnswer now cs p1 with
      | Except.error e => Except.error e
      | Except.ok (rs, p2) => Except.ok (r :: rs, p2)

/-- Rendering of the execution-time float with three decimals.  All embedded
durations are zero, rendered 0.000. -/
def formatExecTime (t : Nat) : Chars := natToChars t ++ ".000".toList

/-- Embedding of ToolResult.to_detailed_string with the default 200-character
parameter truncation. -/
def toDetailedString (r : ToolResult) : Chars :=
  let paramStr0 := pyStr (Json.obj r.parameters)
  let paramStr := if paramStr0.length > 200 then paramStr0.take 200 ++ "...".toList else paramStr0
  "函数名: ".toList ++ r.tool_name ++ "\n".toList
  ++ "参数: ".toList ++ paramStr ++ "\n".toList
  ++ "执行时间: ".toList ++ formatExecTime r.execution_time ++ "秒\n".toList
  ++ (if r.success then "返回值: ".toList ++ r.data
      else "执行失败\n".toList
        ++ (match r.error_code with
            | some c => "错误码: ".toList ++ c ++ "\n".toList
            | none => [])
        ++ "报错信息: ".toList
        ++ (match r.error_message with
            | some m => m
            | none => "None".toList))

def thinkOpenTag : Chars := "<thinking>".toList

def thinkCloseTag : Chars := "</thinking>".toList

/-- Embedding of the pair re.findall with the thinking pattern (yielding the
captured contents) and re.sub removing the same matches (yielding the
residual text), applied to one chunk in ChatBot.chat_stream.  When an open
tag has no later close tag there is no match and the text is unchanged. -/
def extractThinkingPairs : Nat → Chars → (List Chars × Chars)
  | 0, s => ([], s)
  | fuel + 1, s =>
    match findSub thinkOpenTag s with
    | none => ([], s)
    | some (pre, rest) =>
      match findSub thinkCloseTag rest with
      | none => ([], s)
      | some (content, suf) =>
        match extractThinkingPairs fuel suf with
        | (cs, resid) => (content :: cs, pre ++ resid)

/-- The two instance attributes ChatBot.chat_stream uses for thinking-tag
handling: whether _thinking_mode was ever assigned (hasattr) and its current
value.  The accumulated _thinking_content is write-only in the source and
not modelled. -/
structure ThinkState where
  attrSet : Bool
  mode : Bool

/-- Embedding of the chunk-handling block of ChatBot.chat_stream (the body
of the async-for): returns the updated thinking state and the texts yielded
for this chunk, in order. -/
def processChunk (st : ThinkState) (chunk : Chars) : ThinkState × List Chars :=
  if containsSub thinkOpenTag chunk then
    let stOut : ThinkState × List Chars :=
      if !st.attrSet then ({ attrSet := true, mode := true }, [thinkOpenTag])
      else (st, [])
    match extractThinkingPairs (chunk.length + 1) chunk with
    | (contents, residual) =>
      (stOut.1, stOut.2 ++ contents
        ++ (if !(pyStrip residual).isEmpty then [residual] else []))
  else
    let stOut : ThinkState × List Chars :=
      if st.attrSet && st.mode then ({ st with mode := false }, [thinkCloseTag])
      else (st, [])
    (stOut.1, stOut.2 ++ (if !(pyStrip chunk).isEmpty then [chunk] else []))

/-- Chunk handling folded over a whole list of streamed chunks. -/
def processChunks : ThinkState → List Chars → ThinkState × List Chars
  | st, [] => (st, [])
  | st, c :: cs =>
    match processChunk st c with
    | (st1, ys) =>
      match processChunks st1 cs with
      | (st2, ys2) => (st2, ys ++ ys2)

/-- Worker for assignChannels carrying the in-thinking flag. -/
def assignChannelsGo (inThinking : Bool) : List Chars → Chars × Chars
  | [] => ([], [])
  | y :: ys =>
    if y = thinkOpenTag then assignChannelsGo true ys
    else if y = thinkCloseTag then assignChannelsGo false ys
    else
      match assignChannelsGo inThinking ys with
      | (tk, ans) => if inThinking then (y ++ tk, ans) else (tk, y ++ ans)

/-- Channel interpretation of the yielded stream: the loop emits the literal
open and close thinking tags as markers around thinking-channel output, so a
consumer splits the yields on those markers.  Returns (thinking channel,
answer channel). -/
def assignChannels (yields : List Chars) : Chars × Chars :=
  assignChannelsGo false yields

/-- The in-band notice yielded after the streaming loop when the round count
reached the limit. -/
def roundLimitNotice (maxRounds : Nat) : Chars :=
  "\n[达到最大轮次限制 ".toList ++ natToChars maxRounds ++ "，对话结束]".toList

/-- The separator yielded before tool results in the streaming loop. -/
def sepOpenYield : Chars :=
  '\n' :: (List.replicate 20 '=' ++ " 🔧 AI工具调用 ".toList ++ List.replicate 20 '=' ++ ['\n'])

/-- The separator yielded after tool results in the streaming loop. -/
def sepCloseYield : Chars :=
  List.replicate 20 '=' ++ " 🔧 调用完成 ".toList ++ List.replicate 20 '=' ++ ['\n']

/-- The per-result yield (and history text) wrapping a detailed tool result
in the TOOL_RESULT tags. -/
def toolResultYield (r : ToolResult) : Chars :=
  "\n<TOOL_RESULT>\n".toList ++ toDetailedString r ++ "\n</TOOL_RESULT>\n".toList

/-- Shape of the tool-execution step as the loops see it: one list of
results, or the confirmation-suspend signal.  In the theorems it is
instantiated with executeToolCalls over a registry. -/
abbrev ToolExec := List Json → Except UserConfirmationRequired (List ToolResult)

/-- Embedding of the while-loop of ChatBot.chat_stream.  The model provider,
the conversation store and the prompt rebuild are external collaborators:
the streamed chunks of each round are given by respond as a function of the
zero-based round index; exec is the tool-execution step.  remaining is the
number of loop iterations the guard still allows (30 minus the round count),
so the pair walks exactly like the Python guard; after the loop the
round-limit notice is yielded when the count reached 30.  The returned pair
is the final round count and every yielded text in order.  The
has_recent_tool_result variable of the source is computed and never read,
and db writes and console prints are not modelled. -/
def chatStreamLoop (exec : ToolExec) (respond : Nat → List Chars) :
    Nat → Nat → ThinkState → List Chars →
    Except UserConfirmationRequired (Nat × List Chars)
  | 0, count, _, out =>
    Except.ok (count, out ++ (if 30 ≤ count then [roundLimitNotice 30] else []))
  | rem + 1, count, st, out =>
    let count1 := count + 1
    let chunks := respond count
    match processChunks st chunks with
    | (st1, ys) =>
      let calls := extractToolCalls chunks.flatten
      if calls.isEmpty then
        Except.ok (count1, out ++ ys ++ (if 30 ≤ count1 then [roundLimitNotice 30] else []))
      else
        match exec calls with
        | Except.error e => Except.error e
        | Except.ok results =>
          chatStreamLoop exec respond rem count1 st1
            (out ++ ys ++ [sepOpenYield] ++ results.map toolResultYield ++ [sepCloseYield])

/-- Embedding of ChatBot.chat_stream from the top of its while-loop, with
the streaming limit max_rounds = 30 and the initial unset thinking state. -/
def chatStream (exec : ToolExec) (respond : Nat → List Chars) :
    Except UserConfirmationRequired (Nat × List Chars) :=
  chatStreamLoop exec respond 30 0 { attrSet := false, mode := false } []

/-- Return value of the non-streaming ChatBot.chat (the session id is not
modelled). -/
structure ChatOutcome where
  message : Chars
  tool_calls : List Json
  tool_results : List ToolResult
  rounds : Nat

/-- Embedding of the while-loop of ChatBot.chat: respond gives the
assistant message extracted from each round's provider response; the final
message is the concatenation of every round's message; after the loop the
outcome is returned with the final round count — the non-streaming path
appends no round-limit text anywhere. -/
def chatLoop (exec : ToolExec) (respond : Nat → Chars) :
    Nat → Nat → Chars → List Json → List ToolResult →
    Except UserConfirmationRequired ChatOutcome
  | 0, count, msg, tcs, trs =>
    Except.ok { message := msg, tool_calls := tcs, tool_results := trs, rounds := count }
  | rem + 1, count, msg, tcs, trs =>
    let count1 := count + 1
    let am := respond count
    let msg1 := msg ++ am
    let calls := extractToolCalls am
    if calls.isEmpty then
      Except.ok { message := msg1, tool_calls := tcs, tool_results := trs, rounds := count1 }
    else
      match exec calls with
      | Except.error e => Except.error e
      | Except.ok results =>
        chatLoop exec respond rem count1 msg1 (tcs ++ calls) (trs ++ results)

/-- Embedding of ChatBot.chat from the top of its while-loop, with the
non-streaming limit max_rounds = 10. -/
def chat (exec : ToolExec) (respond : Nat → Chars) :
    Except UserConfirmationRequired ChatOutcome :=
  chatLoop exec respond 10 0 [] [] []

def toolResultOpenTag : Chars := "<TOOL_RESULT>".toList

def toolResultCloseTag : Chars := "</TOOL_RESULT>".toList

/-- The placeholder that replaces a stored list_tool_modules result. -/
def placeholderModules : Chars :=
  "<TOOL_RESULT>\n📦 工具模块列表（略，如果想了解，请重新调用 list_tool_modules 工具）\n</TOOL_RESULT>".toList

/-- The placeholder that replaces a stored list_available_tools result. -/
def placeholderAvail : Chars :=
  "<TOOL_RESULT>\n🔧 当前可用工具列表（略，如果想了解，请重新调用 list_available_tools 工具）\n</TOOL_RESULT>".toList

/-- The marker disjunction recognising a stored list_tool_modules result in
ChatBot._filter_tool_results_for_token_saving. -/
def isListToolModulesPayload (inner : Chars) : Bool :=
  containsSub "📦 工具模块列表".toList inner
  || containsSub "list_tool_modules".toList inner
  || (containsSub "工具模块列表".toList inner && containsSub "个模块".toList inner)
  || (containsSub "📁".toList inner && containsSub "激活方式:".toList inner)
  || (containsSub "模块名:".toList inner && containsSub "包含工具".toList inner)

/-- The marker disjunction recognising a stored list_available_tools result,
the first disjunct guarded by the size threshold. -/
def isListAvailableToolsPayload (cfg : Config) (inner : Chars) : Bool :=
  (containsSub "🔧 当前可用工具".toList inner && cfg.filterThreshold < inner.length)
  || containsSub "list_available_tools 工具已执行完成".toList inner

/-- The replacement function passed to re.sub in
ChatBot._filter_tool_results_for_token_saving, applied to the stripped
payload of one TOOL_RESULT block: some placeholder when the payload is
recognised as one of the configured chatty tools, none to keep the original
match. -/
def replaceToolResultPayload (cfg : Config) (inner : Chars) : Option Chars :=
  if cfg.filterTools.contains "list_tool_modules".toList && isListToolModulesPayload inner then
    some placeholderModules
  else if cfg.filterTools.contains "list_available_tools".toList
      && isListAvailableToolsPayload cfg inner then
    some placeholderAvail
  else none

/-- Embedding of the re.sub over the TOOL_RESULT pattern: each block from an
open tag to the first following close tag is replaced by the replacement
function applied to its whitespace-stripped payload (the greedy leading and
lazy-group/trailing whitespace interplay of the pattern amounts to
stripping), other text is kept. -/
def subToolResults : Nat → Config → Chars → Chars
  | 0, _, s => s
  | fuel + 1, cfg, s =>
    match findSub toolResultOpenTag s with
    | none => s
    | some (pre, rest) =>
      match findSub toolResultCloseTag rest with
      | none => s
      | some (between, suf) =>
        let rep := match replaceToolResultPayload cfg (pyStrip between) with
          | some t => t
          | none => toolResultOpenTag ++ between ++ toolResultCloseTag
        pre ++ rep ++ subToolResults fuel cfg suf

/-- Embedding of ChatBot._filter_tool_results_for_token_saving: disabled
optimisation or a recent message returns the content unchanged; otherwise
the TOOL_RESULT substitution runs. -/
def filterToolResultsForTokenSaving (cfg : Config) (content : Chars) (isRecent : Bool) : Chars :=
  if !cfg.tokenOptEnabled then content
  else if !cfg.filterOldToolResults then content
  else if isRecent then content
  else subToolResults (content.length + 1) cfg content

/-- One stored conversation message as the history filter sees it. -/
structure HistMessage where
  role : Chars
  content : Chars

/-- Embedding of the history-processing part of
ChatBot._build_messages_from_history: keep the most recent twenty stored
messages, keep only user and assistant roles, and pass each content through
the token-saving filter, a message counting as recent when its index inside
the window is at least the window length minus keep_recent_messages.  The
system primer and the memory digest prefixed to the returned list do not
interact with the filter and are not modelled. -/
def buildProcessedHistory (cfg : Config) (history : List HistMessage) : List HistMessage :=
  let recent := if history.length > 20 then history.drop (history.length - 20) else history
  recent.enum.filterMap (fun im =>
    if im.2.role = "user".toList || im.2.role = "assistant".toList then
      some { role := im.2.role,
             content := filterToolResultsForTokenSaving cfg im.2.content
               (decide (recent.length - cfg.keepRecentMessages ≤ im.1)) }
    else none)

theorem extractToolCalls_length_le_one (t : Chars) : (extractToolCalls t).length ≤ 1 := by
  unfold extractToolCalls
  by_cases h : (collectToolCalls t).length > 1
  · simp [h, List.length_take]
  · simpa [h] using Nat.le_of_not_lt h

/-- The error side of requestConfirmation only arises on the web branch and
stores exactly the raised request under its freshly generated id. -/
theorem requestConfirmation_error_spec (cfg : Config) (webMode : Bool) (toolName : Chars)
    (info : ToolInfo) (params : List (Chars × Json)) (cliAnswer : Bool) (now : Nat)
    (pending : PendingMap) (e : UserConfirmationRequired × PendingMap)
    (h : requestConfirmation cfg webMode toolName info params cliAnswer now pending
      = Except.error e) :
    e.1 = { tool_name := toolName, tool_info := info, parameters := params,
            confirmation_id := mkConfirmationId toolName now }
    ∧ e.2 = pmInsert (mkConfirmationId toolName now) e.1 pending
    ∧ webMode = true := by
  unfold requestConfirmation at h
  by_cases h1 : requiresUserConfirmation cfg toolName info
  · simp only [h1, Bool.not_true, Bool.false_eq_true, if_false] at h
    cases webMode with
    | false => simp at h
    | true =>
      simp only [if_true] at h
      cases h
      exact ⟨rfl, rfl, rfl⟩
  · simp only [Bool.not_eq_true] at h1
    simp only [h1, Bool.not_false, if_true] at h
    cases hd : getAutoDecision cfg toolName info with
    | none => simp [hd] at h
    | some b => simp [hd] at h

/-- The ok side of execute leaves the pending map unchanged. -/
theorem execute_ok_pending (cfg : Config) (webMode : Bool) (reg : Registry) (name : Chars)
    (params : List (Chars × Json)) (cliAnswer : Bool) (now : Nat) (pending : PendingMap)
    (r : ToolResult) (p : PendingMap)
    (h : execute cfg webMode reg name params cliAnswer now pending = Except.ok (r, p)) :
    p = pending := by
  unfold execute at h
  split at h
  · cases h
    rfl
  · split at h
    · simp at h
    · cases h
      rfl
    · cases h
      rfl

/-- Every call handed to execute produces exactly one of: a ToolResult with
the pending map untouched, or a raised confirmation request stored once in
the pending map. -/
theorem execute_dichotomy (cfg : Config) (webMode : Bool) (reg : Registry) (name : Chars)
    (params : List (Chars × Json)) (cliAnswer : Bool) (now : Nat) (pending : PendingMap) :
    (∃ r, execute cfg webMode reg name params cliAnswer now pending = Except.ok (r, pending))
    ∨ (∃ req, execute cfg webMode reg name params cliAnswer now pending
        = Except.error (req, pmInsert req.confirmation_id req pending)) := by
  cases hx : execute cfg webMode reg name params cliAnswer now pending with
  | ok rp =>
    left
    refine ⟨rp.1, ?_⟩
    have hp := execute_ok_pending cfg webMode reg name params cliAnswer now pending rp.1 rp.2
      (by rw [hx])
    rw [← hp]
  | error e =>
    right
    unfold execute at hx
    cases hreg : reg name with
    | none =>
      simp only [hreg] at hx
      exact (Except.noConfusion hx)
    | some info =>
      simp only [hreg] at hx
      cases hrc : requestConfirmation cfg webMode name info params cliAnswer now pending with
      | ok b =>
        cases b with
        | false =>
          simp only [hrc] at hx
          exact (Except.noConfusion hx)
        | true =>
          simp only [hrc] at hx
          exact (Except.noConfusion hx)
      | error e2 =>
        simp only [hrc] at hx
        injection hx with h3
        subst h3
        obtain ⟨h1, h2, _⟩ := requestConfirmation_error_spec cfg webMode name info params
          cliAnswer now pending e2 hrc
        refine ⟨e2.1, ?_⟩
        have hid : e2.1.confirmation_id = mkConfirmationId name now := by rw [h1]
        rw [← hid] at h2
        rw [← h2]

/-- Lifting of the execute dichotomy through the loop body of
_execute_tool_calls. -/
theorem executeOneToolCall_dichotomy (cfg : Config) (webMode : Bool) (reg : Registry)
    (cliAnswer : Bool) (now : Nat) (pending : PendingMap) (call : Json) :
    (∃ r, executeOneToolCall cfg webMode reg cliAnswer now pending call
      = Except.ok (r, pending))
    ∨ (∃ req, executeOneToolCall cfg webMode reg cliAnswer now pending call
        = Except.error (req, pmInsert req.confirmation_id req pending)) := by
  unfold executeOneToolCall
  exact execute_dichotomy cfg webMode reg _ _ cliAnswer now pending

/-- Unfolding of _execute_tool_calls on a one-element list. -/
theorem executeToolCalls_singleton (cfg : Config) (webMode : Bool) (reg : Registry)
    (cliAnswer : Bool) (now : Nat) (pending : PendingMap) (c : Json) :
    executeToolCalls cfg webMode reg cliAnswer now [c] pending
      = match executeOneToolCall cfg webMode reg cliAnswer now pending c with
        | Except.error e => Except.error e
        | Except.ok (r, p1) => Except.ok ([r], p1) := by
  unfold executeToolCalls
  cases h : executeOneToolCall cfg webMode reg cliAnswer now pending c with
  | error e => simp only [h]
  | ok rp =>
    simp only [h]
    unfold executeToolCalls
    rfl

/-- C1: every tool call extracted from an assistant response and handed to
the round's tool-execution step produces exactly one of: one ToolResult
(with the pending-confirmation store untouched), or one confirmation
request raised and stored once under its confirmation id — never neither
and never both.  The extractor keeps at most one call per round, so the
handed list is empty or a singleton; the Except shape of the embedding
makes the two outcomes mutually exclusive by construction. -/
theorem extracted_call_one_result_or_one_request
    (cfg : Config) (webMode : Bool) (reg : Registry) (cliAnswer : Bool) (now : Nat)
    (pending : PendingMap) (text : Chars) :
    (extractToolCalls text = [] ∧
      executeToolCalls cfg webMode reg cliAnswer now (extractToolCalls text) pending
        = Except.ok ([], pending)) ∨
    (∃ c, extractToolCalls text = [c] ∧
      ((∃ r, executeToolCalls cfg webMode reg cliAnswer now (extractToolCalls text) pending
          = Except.ok ([r], pending)) ∨
       (∃ req, executeToolCalls cfg webMode reg cliAnswer now (extractToolCalls text) pending
          = Except.error (req, pmInsert req.confirmation_id req pending)))) := by
  have hlen := extractToolCalls_length_le_one text
  cases hE : extractToolCalls text with
  | nil =>
    left
    exact ⟨rfl, rfl⟩
  | cons c cs =>
    cases cs with
    | nil =>
      right
      refine ⟨c, rfl, ?_⟩
      rcases executeOneToolCall_dichotomy cfg webMode reg cliAnswer now pending c with
        ⟨r, hr⟩ | ⟨req, hq⟩
      · left
        exact ⟨r, by rw [executeToolCalls_singleton, hr]⟩
      · right
        exact ⟨req, by rw [executeToolCalls_singleton, hq]⟩
    | cons c2 cs2 =>
      rw [hE] at hlen
      simp at hlen

/-- Concatenation of the assistant texts of rem consecutive rounds starting
at round start. -/
def concatResponses (respond : Nat → Chars) (start rem : Nat) : Chars :=
  match rem with
  | 0 => []
  | rem + 1 => respond start ++ concatResponses respond (start + 1) rem

/-- When every round's response contains a tool call and execution never
raises, the non-streaming loop runs down its full budget: the final round
count adds the remaining budget and the final message is exactly the
concatenation of the assistant texts — nothing else is ever appended to
it. -/
theorem chatLoop_spec (exec : ToolExec) (respond : Nat → Chars)
    (hN : ∀ r, (extractToolCalls (respond r)).isEmpty = false)
    (hE : ∀ calls, ∃ rs, exec calls = Except.ok rs) :
    ∀ rem count msg tcs trs, ∃ tcs2 trs2,
      chatLoop exec respond rem count msg tcs trs
        = Except.ok { message := msg ++ concatResponses respond count rem,
                      tool_calls := tcs2, tool_results := trs2, rounds := count + rem } := by
  intro rem
  induction rem with
  | zero =>
    intro count msg tcs trs
    exact ⟨tcs, trs, by simp [chatLoop, concatResponses]⟩
  | succ rem ih =>
    intro count msg tcs trs
    obtain ⟨rs, hrs⟩ := hE (extractToolCalls (respond count))
    obtain ⟨tcs2, trs2, h2⟩ := ih (count + 1) (msg ++ respond count)
      (tcs ++ extractToolCalls (respond count)) (trs ++ rs)
    refine ⟨tcs2, trs2, ?_⟩
    unfold chatLoop
    simp only [hN count, Bool.false_eq_true, if_false, hrs]
    rw [h2]
    have hc : count + 1 + rem = count + (rem + 1) := by omega
    rw [hc]
    simp [concatResponses, List.append_assoc]

/-- When every round's streamed response contains a tool call and execution
never raises, the streaming loop runs down its full budget and, when the
final round count reaches 30, the round-limit notice is the last yield. -/
theorem chatStreamLoop_spec (exec : ToolExec) (respond : Nat → List Chars)
    (hS : ∀ r, (extractToolCalls (respond r).flatten).isEmpty = false)
    (hE : ∀ calls, ∃ rs, exec calls = Except.ok rs) :
    ∀ rem count st out, ∃ mid,
      chatStreamLoop exec respond rem count st out
        = Except.ok (count + rem,
            (out ++ mid) ++ (if 30 ≤ count + rem then [roundLimitNotice 30] else [])) := by
  intro rem
  induction rem with
  | zero =>
    intro count st out
    exact ⟨[], by simp [chatStreamLoop]⟩
  | succ rem ih =>
    intro count st out
    obtain ⟨rs, hrs⟩ := hE (extractToolCalls (respond count).flatten)
    cases hpc : processChunks st (respond count) with
    | mk st1 ys =>
      obtain ⟨mid2, h2⟩ := ih (count + 1) st1
        (out ++ ys ++ [sepOpenYield] ++ rs.map toolResultYield ++ [sepCloseYield])
      refine ⟨ys ++ [sepOpenYield] ++ rs.map toolResultYield ++ [sepCloseYield] ++ mid2, ?_⟩
      unfold chatStreamLoop
      simp only [hpc, hS count, Bool.false_eq_true, if_false, hrs]
      rw [h2]
      have hc : count + 1 + rem = count + (rem + 1) := by omega
      rw [hc]
      simp [List.append_assoc]

/-- A round text that is exactly one well-formed tool call, so extraction
always finds a call and the loop is re-triggered every round. -/
def alwaysCallText : Chars :=
  "<tool_call><name>loop_tool</name><parameters>\x7b\x7d</parameters></tool_call>".toList

/-- A tool result whose content re-triggers nothing by itself; the
re-triggering comes from the model text of the next round. -/
def c2DummyResult : ToolResult :=
  { tool_name := "loop_tool".toList, parameters := [], success := true,
    data := "again".toList, error_code := none, error_message := none, execution_time := 0 }

/-- Tool execution step that always succeeds with one result per call. -/
def c2Exec : ToolExec := fun calls => Except.ok (calls.map (fun _ => c2DummyResult))

/-- Non-streaming model that emits the same tool call every round. -/
def c2Respond : Nat → Chars := fun _ => alwaysCallText

/-- Streaming model that emits the same tool call every round. -/
def c2StreamRespond : Nat → List Chars := fun _ => [alwaysCallText]

/-- C2 (counterexample): on the non-streaming path a session whose every
round re-triggers a valid tool call terminates at its limit of 10 rounds,
but no round-limit notice appears anywhere in the returned message — the
claim that both paths emit an explicit in-band notice on exhaustion fails
on the non-streaming path. -/
theorem chat_round_limit_emits_no_notice :
    (match chat c2Exec c2Respond with
     | Except.ok oc => (oc.rounds, containsSub "达到最大轮次限制".toList oc.message)
     | Except.error _ => (0, true)) = (10, false) := by rfl

/-- C2 (amended): with every round re-triggering a valid tool call and no
confirmation raised, the streaming loop terminates after exactly its limit
of 30 rounds with the round-limit notice as its final yield, and the
non-streaming loop terminates after exactly its limit of 10 rounds without
raising — but its returned message is exactly the concatenation of the
assistant texts, with no limit notice appended. -/
theorem round_limit_termination
    (exec : ToolExec) (respondS : Nat → List Chars) (respondN : Nat → Chars)
    (hS : ∀ r, (extractToolCalls (respondS r).flatten).isEmpty = false)
    (hN : ∀ r, (extractToolCalls (respondN r)).isEmpty = false)
    (hE : ∀ calls, ∃ rs, exec calls = Except.ok rs) :
    (∃ ys, chatStream exec respondS = Except.ok (30, ys)
      ∧ ys.getLast? = some (roundLimitNotice 30))
    ∧ (∃ tcs trs, chat exec respondN
        = Except.ok { message := concatResponses respondN 0 10, tool_calls := tcs,
                      tool_results := trs, rounds := 10 }) := by
  constructor
  · obtain ⟨mid, h⟩ := chatStreamLoop_spec exec respondS hS hE 30 0
      { attrSet := false, mode := false } []
    refine ⟨([] ++ mid) ++ [roundLimitNotice 30], ?_, ?_⟩
    · unfold chatStream
      simpa using h
    · exact List.getLast?_concat _
  · obtain ⟨tcs2, trs2, h⟩ := chatLoop_spec exec respondN hN hE 10 0 [] [] []
    refine ⟨tcs2, trs2, ?_⟩
    unfold chat
    simpa using h

/-- Witness for the round-limit theorem at the concrete always-calling
model and executor. -/
theorem round_limit_termination_witness :
    (∃ ys, chatStream c2Exec c2StreamRespond = Except.ok (30, ys)
      ∧ ys.getLast? = some (roundLimitNotice 30))
    ∧ (∃ tcs trs, chat c2Exec c2Respond
        = Except.ok { message := concatResponses c2Respond 0 10, tool_calls := tcs,
                      tool_results := trs, rounds := 10 }) :=
  round_limit_termination c2Exec c2StreamRespond c2Respond
    (fun _ => rfl) (fun _ => rfl) (fun calls => ⟨calls.map (fun _ => c2DummyResult), rfl⟩)

/-- A found occurrence decomposes the text. -/
theorem findSub_eq_append {pat s pre suf : Chars} (h : findSub pat s = some (pre, suf)) :
    s = pre ++ pat ++ suf := by
  induction s generalizing pre with
  | nil =>
    unfold findSub at h
    by_cases hp : pat.isEmpty
    · simp [hp] at h
      rcases h with ⟨h1, h2⟩
      simp [List.isEmpty_iff.mp hp, ← h1, ← h2]
      simp [h1, h2]
    · simp [hp] at h
  | cons c cs ih =>
    unfold findSub at h
    by_cases hp : pat.isPrefixOf (c :: cs) = true
    · simp only [hp, if_true] at h
      cases h
      have := List.isPrefixOf_iff_prefix.mp hp
      obtain ⟨t, ht⟩ := this
      simp [← ht]
    · simp only [hp, if_false] at h
      cases hf : findSub pat cs with
      | none => rw [hf] at h; simp at h
      | some ps =>
        rw [hf] at h
        cases ps with
        | mk pre2 suf2 =>
          simp at h
          rcases h with ⟨h1, h2⟩
          have := @ih pre2 (by rw [hf, h2])
          rw [← h1]
          simp [this]

/-- Containment is preserved by prepending text. -/
theorem containsSub_append_right {pat ys : Chars} (xs : Chars)
    (h : containsSub pat ys = true) : containsSub pat (xs ++ ys) = true := by
  induction xs with
  | nil => simpa using h
  | cons c cs ih =>
    unfold containsSub at ih ⊢
    by_cases hp : pat.isPrefixOf (c :: (cs ++ ys)) = true
    · simp [findSub, hp]
    · simp only [List.cons_append]
      unfold findSub
      simp only [hp, if_false]
      cases hf : findSub pat (cs ++ ys) with
      | none => rw [hf] at ih; simp at ih
      | some ps => simp

/-- A chunk that contains the open thinking tag but no close tag produces no
complete pair: findall finds nothing and sub leaves the chunk unchanged. -/
theorem extractThinkingPairs_no_close (fuel : Nat) (chunk : Chars)
    (hop : containsSub thinkOpenTag chunk = true)
    (hcl : containsSub thinkCloseTag chunk = false) :
    extractThinkingPairs fuel chunk = ([], chunk) := by
  cases fuel with
  | zero => rfl
  | succ fuel =>
    unfold containsSub at hop
    cases hf : findSub thinkOpenTag chunk with
    | none => rw [hf] at hop; simp at hop
    | some ps =>
      cases ps with
      | mk pre rest =>
        unfold extractThinkingPairs
        rw [hf]
        cases hc : findSub thinkCloseTag rest with
        | none => simp only [hc]
        | some ps2 =>
          exfalso
          have hrest : containsSub thinkCloseTag rest = true := by
            unfold containsSub
            rw [hc]
            rfl
          have hbig := containsSub_append_right (pre ++ thinkOpenTag) hrest
          rw [← findSub_eq_append hf] at hbig
          rw [hcl] at hbig
          exact Bool.noConfusion hbig

/-- C3 (counterexample): a thinking segment split across two chunks leaks
into the answer channel.  With the open tag and the first half of the
content in chunk one and the rest with the close tag in chunk two, the loop
yields the open marker and the raw first chunk, then — because chunk two
contains no open tag while the flag is set — immediately yields the close
marker and routes the whole second chunk, including the inner content
before its close tag, to the answer channel; the in-thinking flag is
cleared rather than kept.  This falsifies both that all content between the
tags reaches the thinking channel and that a tag-free chunk under the set
flag keeps routing to thinking. -/
theorem thinking_straddle_leaks_to_answer :
    processChunks { attrSet := false, mode := false }
      ["<thinking>secret".toList, " more</thinking>after".toList]
      = ({ attrSet := true, mode := false },
         [thinkOpenTag, "<thinking>secret".toList, thinkCloseTag,
          " more</thinking>after".toList])
    ∧ (assignChannels [thinkOpenTag, "<thinking>secret".toList, thinkCloseTag,
        " more</thinking>after".toList]).2 = " more</thinking>after".toList
    ∧ containsSub " more".toList " more</thinking>after".toList = true :=
  ⟨rfl, rfl, rfl⟩

/-- C3 (amended): the loop handles thinking tags chunk-locally.  While the
in-thinking flag is set, a chunk with no open tag closes the thinking
channel (emitting the close marker) and its content — including any
leftover close tag of a straddling segment — is routed to the answer
channel; and a fresh chunk containing an open tag but no close tag yields
the open marker followed by the raw chunk, with no pair extracted. -/
theorem thinking_chunk_local_routing :
    (∀ st chunk, st.attrSet = true → st.mode = true →
      containsSub thinkOpenTag chunk = false →
      processChunk st chunk
        = ({ attrSet := true, mode := false },
           thinkCloseTag :: (if !(pyStrip chunk).isEmpty then [chunk] else [])))
    ∧ (∀ chunk, containsSub thinkOpenTag chunk = true →
      containsSub thinkCloseTag chunk = false →
      processChunk { attrSet := false, mode := false } chunk
        = ({ attrSet := true, mode := true },
           thinkOpenTag :: (if !(pyStrip chunk).isEmpty then [chunk] else []))) := by
  constructor
  · intro st chunk ha hm hop
    unfold processChunk
    rw [hop]
    simp only [Bool.false_eq_true, if_false, ha, hm]
    rfl
  · intro chunk hop hcl
    unfold processChunk
    rw [hop]
    simp only [if_true]
    rw [extractThinkingPairs_no_close (chunk.length + 1) chunk hop hcl]
    rfl

/-- Witness for the chunk-local routing theorem at two concrete chunks. -/
theorem thinking_chunk_local_routing_witness :
    processChunk { attrSet := true, mode := true } "plain text".toList
      = ({ attrSet := true, mode := false }, [thinkCloseTag, "plain text".toList])
    ∧ processChunk { attrSet := false, mode := false } "<thinking>sec".toList
      = ({ attrSet := true, mode := true }, [thinkOpenTag, "<thinking>sec".toList]) :=
  ⟨thinking_chunk_local_routing.1 { attrSet := true, mode := true } "plain text".toList
      rfl rfl rfl,
   thinking_chunk_local_routing.2 "<thinking>sec".toList rfl rfl⟩

/-- A tool_call block whose parameters content is not JSON. -/
def c4MalformedBlock : Chars :=
  "<tool_call><name>foo</name><parameters>not json</parameters></tool_call>".toList

/-- C4 (counterexample): a tool_call block whose parameters content is not
valid JSON still yields a ToolCall.  The parser falls back to XML parameter
parsing, which here finds nothing, producing an empty parameter dict, and
that call validates — so the extractor returns one call for the block
instead of none. -/
theorem malformed_parameters_still_yield_call :
    extractToolCalls c4MalformedBlock = [mkCallDict "foo".toList "\x7b\x7d".toList]
    ∧ extractToolCalls c4MalformedBlock ≠ [] := by
  have h1 : extractToolCalls c4MalformedBlock
      = [mkCallDict "foo".toList "\x7b\x7d".toList] := rfl
  exact ⟨h1, by rw [h1]; exact List.cons_ne_nil _ _⟩

/-- C4 (amended): for a tool_call block with a name tag whose parameters
content fails JSON parsing, the extractor does not raise and does not drop
the block: it falls back to XML-style parameter parsing (an empty dict when
nothing matches) and produces the ToolCall with the re-serialized fallback
parameters. -/
theorem malformed_parameters_fallback
    (content nm pc : Chars)
    (hn : searchPair "<name>".toList "</name>".toList content = some nm)
    (hp : searchPair "<parameters>".toList "</parameters>".toList content = some pc)
    (hj : jsonParse (pyStrip pc) = none) :
    parseSingleXmlToolCall content
      = some (mkCallDict (pyStrip nm)
          (jsonDumps (Json.obj (parseXmlParameters (pyStrip pc))))) := by
  unfold parseSingleXmlToolCall parseParamsContent
  simp only [hn, hp, hj]

/-- Witness for the fallback theorem at a concrete malformed block. -/
theorem malformed_parameters_fallback_witness :
    parseSingleXmlToolCall "<name>foo</name><parameters>not json</parameters>".toList
      = some (mkCallDict "foo".toList "\x7b\x7d".toList) :=
  malformed_parameters_fallback
    "<name>foo</name><parameters>not json</parameters>".toList
    "foo".toList "not json".toList rfl rfl rfl

/-- An assistant text containing three well-formed tool_call blocks. -/
def c5ThreeBlocks : Chars :=
  ("Some prose "
    ++ "<tool_call><name>a1</name><parameters>\x7b\x7d</parameters></tool_call>"
    ++ "<tool_call><name>a2</name><parameters>\x7b\x7d</parameters></tool_call>"
    ++ "<tool_call><name>a3</name><parameters>\x7b\x7d</parameters></tool_call>").toList

/-- C5: whenever more than one valid call is collected (across either
syntax), extraction returns only the first collected call: the returned
list is always the one-element prefix of the collected list.  In
particular, a text with three well-formed tool_call blocks collects all
three calls in order and extraction returns exactly the first. -/
theorem single_call_per_round :
    (∀ t, extractToolCalls t = (collectToolCalls t).take 1)
    ∧ collectToolCalls c5ThreeBlocks
      = [mkCallDict "a1".toList "\x7b\x7d".toList,
         mkCallDict "a2".toList "\x7b\x7d".toList,
         mkCallDict "a3".toList "\x7b\x7d".toList]
    ∧ extractToolCalls c5ThreeBlocks = [mkCallDict "a1".toList "\x7b\x7d".toList] := by
  refine ⟨?_, rfl, rfl⟩
  intro t
  unfold extractToolCalls
  by_cases h : (collectToolCalls t).length > 1
  · simp [h]
  · have hle : (collectToolCalls t).length ≤ 1 := Nat.le_of_not_lt h
    simp only [h, if_false]
    exact (List.take_of_length_le hle).symm

/-- When the tool is registered, not flagged for confirmation, and no policy
or session memory auto-denies, execute reaches the handler invocation with
the pending map untouched. -/
theorem execute_passes_gate (cfg : Config) (webMode : Bool) (reg : Registry) (name : Chars)
    (params : List (Chars × Json)) (ans : Bool) (now : Nat) (pending : PendingMap)
    (info : ToolInfo)
    (hreg : reg name = some info)
    (hrc : info.requires_confirmation = false)
    (had : getAutoDecision cfg name info ≠ some false) :
    execute cfg webMode reg name params ans now pending
      = Except.ok (invokeHandler info name params
          (filterParams info.sigParams (mapParameters name params)), pending) := by
  unfold execute
  simp only [hreg]
  have h1 : requiresUserConfirmation cfg name info = false := by
    unfold requiresUserConfirmation
    simp [hrc]
  have h2 : requestConfirmation cfg webMode name info params ans now pending
      = Except.ok true := by
    unfold requestConfirmation
    simp only [h1, Bool.not_false, if_true]
    cases hd : getAutoDecision cfg name info with
    | none => rfl
    | some b =>
      cases b with
      | true => rfl
      | false => exact absurd hd had
  simp only [h2]

/-- A registered tool whose handler raises a TypeError. -/
def c6TypeErrTool : ToolInfo where
  handler := fun _ => HandlerOutcome.raiseTypeError "boom".toList
  sigParams := []
  description := "demo".toList
  schema := Json.obj []
  requires_confirmation := false
  confirmation_category := "general".toList
  risk_level := "medium".toList

/-- A registry holding only the TypeError-raising tool. -/
def c6Reg : Registry := fun n => if n = "crashy".toList then some c6TypeErrTool else none

/-- C6 (counterexample): a handler that raises a TypeError during its
invocation does not produce EXECUTION_ERROR: the except TypeError arm of
execute cannot tell a handler-raised TypeError from a call-arity mismatch,
so the result carries PARAMETER_ERROR (with the schema hint), falsifying
the claim that every handler exception becomes EXECUTION_ERROR. -/
theorem handler_typeerror_not_execution_error :
    (match execute defaultConfig false c6Reg "crashy".toList [] true 0 [] with
     | Except.ok (r, _) => (r.success, r.data, r.error_code)
     | Except.error _ => (true, "x".toList, none)) = (false, [], some PARAMETER_ERROR)
    ∧ PARAMETER_ERROR ≠ EXECUTION_ERROR :=
  ⟨rfl, by decide⟩

/-- C6 (amended): an exception raised by the handler never propagates past
the registry boundary and always yields a failed ToolResult with empty
data; a non-TypeError exception becomes EXECUTION_ERROR, while a TypeError
— whether from an arity mismatch or raised inside the handler — becomes
PARAMETER_ERROR carrying the rendered schema hint. -/
theorem handler_exception_conversion
    (cfg : Config) (webMode : Bool) (reg : Registry) (name : Chars)
    (params : List (Chars × Json)) (ans : Bool) (now : Nat) (pending : PendingMap)
    (info : ToolInfo) (m : Chars)
    (hreg : reg name = some info)
    (hrc : info.requires_confirmation = false)
    (had : getAutoDecision cfg name info ≠ some false) :
    (info.handler (filterParams info.sigParams (mapParameters name params))
        = HandlerOutcome.raiseOther m →
      execute cfg webMode reg name params ans now pending
        = Except.ok ({ tool_name := name, parameters := params, success := false,
                       data := [], error_code := some EXECUTION_ERROR,
                       error_message := some ("执行工具 ".toList ++ name
                         ++ " 失败: ".toList ++ m),
                       execution_time := 0 }, pending))
    ∧ (info.handler (filterParams info.sigParams (mapParameters name params))
        = HandlerOutcome.raiseTypeError m →
      execute cfg webMode reg name params ans now pending
        = Except.ok ({ tool_name := name, parameters := params, success := false,
                       data := [], error_code := some PARAMETER_ERROR,
                       error_message := some ("参数错误: ".toList ++ m ++ "\n\n".toList
                         ++ formatToolSchemaForError name info),
                       execution_time := 0 }, pending)) := by
  constructor
  · intro hh
    rw [execute_passes_gate cfg webMode reg name params ans now pending info hreg hrc had]
    unfold invokeHandler
    rw [hh]
  · intro hh
    rw [execute_passes_gate cfg webMode reg name params ans now pending info hreg hrc had]
    unfold invokeHandler
    rw [hh]

/-- A registered tool whose handler raises a non-TypeError exception. -/
def c6OtherErrTool : ToolInfo where
  handler := fun _ => HandlerOutcome.raiseOther "kaput".toList
  sigParams := []
  description := "demo".toList
  schema := Json.obj []
  requires_confirmation := false
  confirmation_category := "general".toList
  risk_level := "medium".toList

/-- A registry holding only the non-TypeError-raising tool. -/
def c6OtherReg : Registry := fun n => if n = "bad".toList then some c6OtherErrTool else none

/-- Witness for the exception-conversion theorem at a concrete registry. -/
theorem handler_exception_conversion_witness :
    execute defaultConfig false c6OtherReg "bad".toList [] true 0 []
      = Except.ok ({ tool_name := "bad".toList, parameters := [], success := false,
                     data := [], error_code := some EXECUTION_ERROR,
                     error_message := some ("执行工具 ".toList ++ "bad".toList
                       ++ " 失败: ".toList ++ "kaput".toList),
                     execution_time := 0 }, []) :=
  (handler_exception_conversion defaultConfig false c6OtherReg "bad".toList [] true 0 []
    c6OtherErrTool "kaput".toList rfl rfl
    (by
      intro h
      rw [show getAutoDecision defaultConfig "bad".toList c6OtherErrTool = none from rfl] at h
      exact Option.noConfusion h)).1 rfl

/-- Deleting a pending id makes its lookup fail. -/
theorem pmLookup_erase (k : Chars) (m : PendingMap) : pmLookup k (pmErase k m) = none := by
  unfold pmLookup pmErase
  have hf : List.find? (fun f => f.1 = k) (List.filter (fun f => !(f.1 = k : Bool)) m)
      = none := by
    rw [List.find?_eq_none]
    intro x hx
    have := (List.mem_filter.mp hx).2
    simpa using this
  rw [hf]

/-- Storing a request under an id with no pending entry appends one new
entry, found by its id. -/
theorem pmInsert_fresh (k : Chars) (v : UserConfirmationRequired) (m : PendingMap)
    (h : pmLookup k m = none) :
    pmInsert k v m = m ++ [(k, v)]
    ∧ pmLookup k (pmInsert k v m) = some v
    ∧ (pmInsert k v m).length = m.length + 1 := by
  have hf : List.find? (fun f => f.1 = k) m = none := by
    unfold pmLookup at h
    cases hff : List.find? (fun f => f.1 = k) m with
    | none => rfl
    | some f => rw [hff] at h; simp at h
  have h1 : pmInsert k v m = m ++ [(k, v)] := by
    unfold pmInsert
    rw [hf]
    simp
  refine ⟨h1, ?_, by rw [h1]; simp⟩
  rw [h1]
  unfold pmLookup
  rw [List.find?_append, hf]
  simp

/-- In web mode a call that needs confirmation raises the request built
from the tool, the parameters and the clock-derived id, and stores it. -/
theorem execute_web_gated_raises (cfg : Config) (reg : Registry) (name : Chars)
    (params : List (Chars × Json)) (ans : Bool) (now : Nat) (pending : PendingMap)
    (info : ToolInfo)
    (hreg : reg name = some info)
    (hgate : requiresUserConfirmation cfg name info = true) :
    execute cfg true reg name params ans now pending
      = Except.error
          ({ tool_name := name, tool_info := info, parameters := params,
             confirmation_id := mkConfirmationId name now },
           pmInsert (mkConfirmationId name now)
             { tool_name := name, tool_info := info, parameters := params,
               confirmation_id := mkConfirmationId name now } pending) := by
  unfold execute
  simp only [hreg]
  unfold requestConfirmation
  simp only [hgate, Bool.not_true, Bool.false_eq_true, if_false, if_true]

/-- A gated tool used by the suspend-mode scenarios. -/
def c7GatedTool : ToolInfo where
  handler := fun _ => HandlerOutcome.returns (HandlerReturn.hstr "ok".toList)
  sigParams := []
  description := "demo".toList
  schema := Json.obj []
  requires_confirmation := true
  confirmation_category := "general".toList
  risk_level := "medium".toList

/-- A registry holding only the gated tool. -/
def c7Reg : Registry := fun n => if n = "t".toList then some c7GatedTool else none

/-- C7 (counterexample): the confirmation id is the tool name plus the
current millisecond, so two suspend-mode calls of the same tool in the same
millisecond raise requests with the same id, and storing the second
overwrites the first pending entry — after both raises the pending store
holds a single entry, falsifying that each raised id is unique among all
pending requests. -/
theorem confirmation_id_collision :
    (match execute defaultConfig true c7Reg "t".toList [] true 5 [] with
     | Except.error (req1, p1) =>
       (match execute defaultConfig true c7Reg "t".toList [] true 5 p1 with
        | Except.error (req2, p2) => (req1.confirmation_id, req2.confirmation_id, p2.length)
        | Except.ok _ => ([], [], 0))
     | Except.ok _ => ([], [], 0))
    = ("t_5".toList, "t_5".toList, 1) := by rfl

/-- C7 (amended): in suspend mode a call whose resolved handling is to ask
raises the suspend signal exactly once, carrying the id derived from the
tool name and the current millisecond; that id is fresh whenever no pending
request already uses it (in particular whenever no pending request of the
same tool shares the millisecond).  A resume that denies consumes the
pending entry, and an approval followed by execute_confirmed_tool consumes
it; in either case a second resume of the same id fails with the
unknown-request error. -/
theorem suspend_confirmation_lifecycle (cfg : Config) (reg : Registry) (name : Chars)
    (info : ToolInfo) (params : List (Chars × Json)) (ans : Bool) (now : Nat)
    (pending : PendingMap) (cid : Chars) (req : UserConfirmationRequired) :
    (reg name = some info → requiresUserConfirmation cfg name info = true →
      execute cfg true reg name params ans now pending
        = Except.error
            ({ tool_name := name, tool_info := info, parameters := params,
               confirmation_id := mkConfirmationId name now },
             pmInsert (mkConfirmationId name now)
               { tool_name := name, tool_info := info, parameters := params,
                 confirmation_id := mkConfirmationId name now } pending)
      ∧ (pmLookup (mkConfirmationId name now) pending = none →
          pmLookup (mkConfirmationId name now)
              (pmInsert (mkConfirmationId name now)
                { tool_name := name, tool_info := info, parameters := params,
                  confirmation_id := mkConfirmationId name now } pending)
            = some { tool_name := name, tool_info := info, parameters := params,
                     confirmation_id := mkConfirmationId name now }
          ∧ (pmInsert (mkConfirmationId name now)
              { tool_name := name, tool_info := info, parameters := params,
                confirmation_id := mkConfirmationId name now } pending).length
            = pending.length + 1))
    ∧ (pmLookup cid pending = some req →
      handleConfirmationResponse cfg true pending cid "deny".toList false
        = Except.ok (false, pmErase cid pending, cfg)
      ∧ handleConfirmationResponse cfg true (pmErase cid pending) cid "deny".toList false
        = Except.error ("未找到确认请求: ".toList ++ cid)
      ∧ executeConfirmedTool reg (pmErase cid pending) cid
        = Except.error ("未找到确认请求: ".toList ++ cid))
    ∧ (pmLookup cid pending = some req →
      handleConfirmationResponse cfg true pending cid "allow".toList false
        = Except.ok (true, pending, cfg)
      ∧ (∃ r, executeConfirmedTool reg pending cid = Except.ok (r, pmErase cid pending))
      ∧ executeConfirmedTool reg (pmErase cid pending) cid
        = Except.error ("未找到确认请求: ".toList ++ cid)) := by
  refine ⟨?_, ?_, ?_⟩
  · intro hreg hgate
    refine ⟨execute_web_gated_raises cfg reg name params ans now pending info hreg hgate, ?_⟩
    intro hfree
    obtain ⟨_, h2, h3⟩ := pmInsert_fresh (mkConfirmationId name now)
      { tool_name := name, tool_info := info, parameters := params,
        confirmation_id := mkConfirmationId name now } pending hfree
    exact ⟨h2, h3⟩
  · intro hpend
    have herase := pmLookup_erase cid pending
    refine ⟨?_, ?_, ?_⟩
    · unfold handleConfirmationResponse
      simp only [hpend]
      rfl
    · unfold handleConfirmationResponse
      simp only [herase]
    · unfold executeConfirmedTool
      simp only [herase]
  · intro hpend
    have herase := pmLookup_erase cid pending
    refine ⟨?_, ?_, ?_⟩
    · unfold handleConfirmationResponse
      simp only [hpend]
      rfl
    · unfold executeConfirmedTool
      simp only [hpend]
      cases hreg2 : reg req.tool_name with
      | none => exact ⟨toolNotFoundResult req.tool_name req.parameters, by simp only [hreg2]⟩
      | some info2 =>
        simp only [hreg2]
        exact ⟨_, rfl⟩
    · unfold executeConfirmedTool
      simp only [herase]

/-- A pending request and store used by the lifecycle witness. -/
def c7Req : UserConfirmationRequired where
  tool_name := "t".toList
  tool_info := c7GatedTool
  parameters := []
  confirmation_id := "t_7".toList

/-- The pending store already holding the request. -/
def c7Pending : PendingMap := [("t_7".toList, c7Req)]

/-- Witness for the lifecycle theorem at the concrete gated registry. -/
theorem suspend_confirmation_lifecycle_witness :
    execute defaultConfig true c7Reg "t".toList [] true 7 []
      = Except.error (c7Req, pmInsert "t_7".toList c7Req [])
    ∧ handleConfirmationResponse defaultConfig true c7Pending "t_7".toList "deny".toList false
      = Except.ok (false, pmErase "t_7".toList c7Pending, defaultConfig)
    ∧ executeConfirmedTool c7Reg (pmErase "t_7".toList c7Pending) "t_7".toList
      = Except.error ("未找到确认请求: ".toList ++ "t_7".toList) := by
  refine ⟨?_, ?_, ?_⟩
  · exact ((suspend_confirmation_lifecycle defaultConfig c7Reg "t".toList c7GatedTool []
      true 7 [] "t_7".toList c7Req).1 rfl rfl).1
  · exact ((suspend_confirmation_lifecycle defaultConfig c7Reg "t".toList c7GatedTool []
      true 7 c7Pending "t_7".toList c7Req).2.1 rfl).1
  · exact ((suspend_confirmation_lifecycle defaultConfig c7Reg "t".toList c7GatedTool []
      true 7 c7Pending "t_7".toList c7Req).2.1 rfl).2.2

/-- A resolved allow policy passes the gate straight to the handler. -/
theorem execute_policy_allow (cfg : Config) (webMode : Bool) (reg : Registry) (name : Chars)
    (params : List (Chars × Json)) (ans : Bool) (now : Nat) (pending : PendingMap)
    (info : ToolInfo)
    (hreg : reg name = some info)
    (hpol : getConfirmationPolicy cfg name info.confirmation_category = "allow".toList) :
    execute cfg webMode reg name params ans now pending
      = Except.ok (invokeHandler info name params
          (filterParams info.sigParams (mapParameters name params)), pending) := by
  have h1 : requiresUserConfirmation cfg name info = false := by
    unfold requiresUserConfirmation
    simp only [hpol]
    cases hc : info.requires_confirmation <;> simp
  have h2 : getAutoDecision cfg name info = some true := by
    unfold getAutoDecision
    simp only [hpol]
    simp
  unfold execute
  simp only [hreg]
  unfold requestConfirmation
  simp only [h1, Bool.not_false, if_true, h2]

/-- A resolved deny policy short-circuits to the denied failure, never
reaching the handler or the prompt. -/
theorem execute_policy_deny (cfg : Config) (webMode : Bool) (reg : Registry) (name : Chars)
    (params : List (Chars × Json)) (ans : Bool) (now : Nat) (pending : PendingMap)
    (info : ToolInfo)
    (hreg : reg name = some info)
    (hpol : getConfirmationPolicy cfg name info.confirmation_category = "deny".toList) :
    execute cfg webMode reg name params ans now pending
      = Except.ok ({ tool_name := name, parameters := params, success := false, data := [],
                     error_code := some "USER_DENIED".toList,
                     error_message := some "用户拒绝执行此操作".toList,
                     execution_time := 0 }, pending) := by
  have h1 : requiresUserConfirmation cfg name info = false := by
    unfold requiresUserConfirmation
    simp only [hpol]
    cases hc : info.requires_confirmation <;> simp
  have h2 : getAutoDecision cfg name info = some false := by
    unfold getAutoDecision
    simp only [hpol]
    simp
  unfold execute
  simp only [hreg]
  unfold requestConfirmation
  simp only [h1, Bool.not_false, if_true, h2]

/-- C8: the effective confirmation policy resolves per-tool first, then
per-category, then the global default; a resolved allow lets execute invoke
the handler with no prompt and no suspension signal in either mode, and a
resolved deny short-circuits to the USER_DENIED failure without prompting
and without reaching the handler. -/
theorem policy_resolution_and_short_circuit :
    (∀ (cfg : Config) (t c p : Chars), cfg.toolPolicies t = some p →
      getConfirmationPolicy cfg t c = p)
    ∧ (∀ (cfg : Config) (t c p : Chars), cfg.toolPolicies t = none →
      cfg.categoryPolicies c = some p → getConfirmationPolicy cfg t c = p)
    ∧ (∀ (cfg : Config) (t c : Chars), cfg.toolPolicies t = none →
      cfg.categoryPolicies c = none → getConfirmationPolicy cfg t c = cfg.defaultPolicy)
    ∧ (∀ (cfg : Config) (webMode : Bool) (reg : Registry) (name : Chars)
        (params : List (Chars × Json)) (ans : Bool) (now : Nat) (pending : PendingMap)
        (info : ToolInfo), reg name = some info →
      getConfirmationPolicy cfg name info.confirmation_category = "allow".toList →
      execute cfg webMode reg name params ans now pending
        = Except.ok (invokeHandler info name params
            (filterParams info.sigParams (mapParameters name params)), pending))
    ∧ (∀ (cfg : Config) (webMode : Bool) (reg : Registry) (name : Chars)
        (params : List (Chars × Json)) (ans : Bool) (now : Nat) (pending : PendingMap)
        (info : ToolInfo), reg name = some info →
      getConfirmationPolicy cfg name info.confirmation_category = "deny".toList →
      execute cfg webMode reg name params ans now pending
        = Except.ok ({ tool_name := name, parameters := params, success := false, data := [],
                       error_code := some "USER_DENIED".toList,
                       error_message := some "用户拒绝执行此操作".toList,
                       execution_time := 0 }, pending)) := by
  refine ⟨?_, ?_, ?_, ?_, ?_⟩
  · intro cfg t c p h
    unfold getConfirmationPolicy
    simp [h]
  · intro cfg t c p h1 h2
    unfold getConfirmationPolicy
    simp [h1, h2]
  · intro cfg t c h1 h2
    unfold getConfirmationPolicy
    simp [h1, h2]
  · intro cfg webMode reg name params ans now pending info hreg hpol
    exact execute_policy_allow cfg webMode reg name params ans now pending info hreg hpol
  · intro cfg webMode reg name params ans now pending info hreg hpol
    exact execute_policy_deny cfg webMode reg name params ans now pending info hreg hpol

/-- A confirmation-flagged tool in the network_request category, whose
category policy in the default configuration is allow. -/
def c8NetTool : ToolInfo where
  handler := fun _ => HandlerOutcome.returns (HandlerReturn.hstr "fetched".toList)
  sigParams := []
  description := "demo".toList
  schema := Json.obj []
  requires_confirmation := true
  confirmation_category := "network_request".toList
  risk_level := "medium".toList

/-- A registry holding only the network tool. -/
def c8Reg : Registry := fun n => if n = "fetch".toList then some c8NetTool else none

/-- The default configuration with a per-tool deny policy for the tool. -/
def c8DenyCfg : Config := setToolPolicy defaultConfig "fetch".toList "deny".toList

/-- Witness for the policy theorem: under the default configuration the
category policy resolves to allow and the gated tool executes with no
suspension even in web mode; with a per-tool deny policy the same call is
denied without reaching the handler. -/
theorem policy_resolution_witness :
    getConfirmationPolicy defaultConfig "fetch".toList "network_request".toList
      = "allow".toList
    ∧ execute defaultConfig true c8Reg "fetch".toList [] true 0 []
      = Except.ok (invokeHandler c8NetTool "fetch".toList []
          (filterParams c8NetTool.sigParams (mapParameters "fetch".toList [])), [])
    ∧ execute c8DenyCfg true c8Reg "fetch".toList [] true 0 []
      = Except.ok ({ tool_name := "fetch".toList, parameters := [], success := false,
                     data := [], error_code := some "USER_DENIED".toList,
                     error_message := some "用户拒绝执行此操作".toList,
                     execution_time := 0 }, []) :=
  ⟨policy_resolution_and_short_circuit.2.1 defaultConfig "fetch".toList
      "network_request".toList "allow".toList rfl rfl,
   policy_resolution_and_short_circuit.2.2.2.1 defaultConfig true c8Reg "fetch".toList []
      true 0 [] c8NetTool rfl rfl,
   policy_resolution_and_short_circuit.2.2.2.2 c8DenyCfg true c8Reg "fetch".toList []
      true 0 [] c8NetTool rfl rfl⟩


/-- An oversized list_available_tools payload: its banner marker followed by
one thousand filler characters, total length 1007, above the default
threshold of 1000. -/
def c9BigPayload : Chars := "🔧 当前可用工具".toList ++ List.replicate 1000 'x'

/-- A short stored list_tool_modules result (the markers alone trigger the
rewrite for this tool, with no size condition). -/
def c9ModulesPayload : Chars := "函数名: list_tool_modules 返回值: ...".toList

/-- The modules payload wrapped as a stored TOOL_RESULT turn. -/
def c9Wrapped : Chars :=
  "<TOOL_RESULT>\n".toList ++ c9ModulesPayload ++ "\n</TOOL_RESULT>".toList

/-- A seven-message history whose first (old) and last (recent) messages
both store the chatty payload. -/
def c9History : List HistMessage :=
  [{ role := "user".toList, content := c9Wrapped },
   { role := "assistant".toList, content := "ok".toList },
   { role := "user".toList, content := "q1".toList },
   { role := "assistant".toList, content := "a1".toList },
   { role := "user".toList, content := "q2".toList },
   { role := "assistant".toList, content := "a2".toList },
   { role := "user".toList, content := c9Wrapped }]

/-- C9: prompt assembly replaces stored chatty tool results only outside the
most-recent-K window.  A message inside the window passes the filter
verbatim regardless of size or content; an old payload recognised as a
list_tool_modules result is replaced by its placeholder; an old payload
carrying the list_available_tools banner and exceeding the size threshold
is replaced by a placeholder (the modules placeholder when the payload also
matches the modules markers, the available-tools placeholder otherwise).
On the concrete seven-message history with keep_recent_messages = 5, the
first stored copy of the chatty payload (outside the window) is rewritten
to the placeholder while the identical last copy (inside the window) is
kept intact. -/
theorem chatty_tool_result_filtering :
    (∀ (cfg : Config) (content : Chars),
      filterToolResultsForTokenSaving cfg content true = content)
    ∧ (∀ p, isListToolModulesPayload p = true →
      replaceToolResultPayload defaultConfig p = some placeholderModules)
    ∧ (∀ p, containsSub "🔧 当前可用工具".toList p = true →
      defaultConfig.filterThreshold < p.length →
      ∃ ph, replaceToolResultPayload defaultConfig p = some ph
        ∧ (ph = placeholderModules ∨ ph = placeholderAvail))
    ∧ buildProcessedHistory defaultConfig c9History
      = [{ role := "user".toList, content := placeholderModules },
         { role := "assistant".toList, content := "ok".toList },
         { role := "user".toList, content := "q1".toList },
         { role := "assistant".toList, content := "a1".toList },
         { role := "user".toList, content := "q2".toList },
         { role := "assistant".toList, content := "a2".toList },
         { role := "user".toList, content := c9Wrapped }] := by
  refine ⟨?_, ?_, ?_, ?_⟩
  · intro cfg content
    unfold filterToolResultsForTokenSaving
    cases h1 : cfg.tokenOptEnabled <;> cases h2 : cfg.filterOldToolResults <;> simp [h1, h2]
  · intro p h
    unfold replaceToolResultPayload
    rw [show defaultConfig.filterTools.contains "list_tool_modules".toList = true from rfl, h]
    rfl
  · intro p h1 h2
    by_cases hm : isListToolModulesPayload p = true
    · refine ⟨placeholderModules, ?_, Or.inl rfl⟩
      unfold replaceToolResultPayload
      rw [show defaultConfig.filterTools.contains "list_tool_modules".toList = true from rfl,
        hm]
      rfl
    · refine ⟨placeholderAvail, ?_, Or.inr rfl⟩
      have hm2 : isListToolModulesPayload p = false := by
        cases hv : isListToolModulesPayload p with
        | false => rfl
        | true => exact absurd hv hm
      unfold replaceToolResultPayload isListAvailableToolsPayload
      rw [show defaultConfig.filterTools.contains "list_tool_modules".toList = true from rfl,
        hm2, h1, decide_eq_true h2]
      rfl
  · rfl

/-- Witness for the filtering theorem: the recent-window identity and the
modules rewrite at concrete payloads, and the threshold rewrite at the
concrete 1007-character banner payload. -/
theorem chatty_tool_result_filtering_witness :
    filterToolResultsForTokenSaving defaultConfig c9Wrapped true = c9Wrapped
    ∧ replaceToolResultPayload defaultConfig c9ModulesPayload = some placeholderModules
    ∧ ∃ ph, replaceToolResultPayload defaultConfig c9BigPayload = some ph
        ∧ (ph = placeholderModules ∨ ph = placeholderAvail) :=
  ⟨chatty_tool_result_filtering.1 defaultConfig c9Wrapped,
   chatty_tool_result_filtering.2.1 c9ModulesPayload rfl,
   chatty_tool_result_filtering.2.2.1 c9BigPayload rfl (by decide)⟩

/-- C10: resuming an approved confirmation through execute_confirmed_tool
rewrites a normally returned string that starts with the cross-mark
character into a failure: success becomes false, error_code
TOOL_EXECUTION_ERROR, error_message the returned string, data empty.  The
direct ToolRegistry.execute path (here reached through an allow policy on
the same tool) performs no such rewrite and returns the same handler value
as a success — the resumed path is not behaviourally equivalent to direct
execution. -/
theorem resumed_vs_direct_rewrite
    (cfg2 : Config) (webMode : Bool) (reg : Registry) (pending pending2 : PendingMap)
    (cid : Chars) (req : UserConfirmationRequired) (info : ToolInfo) (s : Chars)
    (ans : Bool) (now : Nat)
    (hpend : pmLookup cid pending = some req)
    (hreg : reg req.tool_name = some info)
    (hh : info.handler
        (filterParams info.sigParams (mapParameters req.tool_name req.parameters))
      = HandlerOutcome.returns (HandlerReturn.hstr s))
    (hpre : "❌".toList.isPrefixOf s = true)
    (hpol : getConfirmationPolicy cfg2 req.tool_name info.confirmation_category
      = "allow".toList) :
    executeConfirmedTool reg pending cid
      = Except.ok ({ tool_name := req.tool_name, parameters := req.parameters,
                     success := false, data := [],
                     error_code := some "TOOL_EXECUTION_ERROR".toList,
                     error_message := some s, execution_time := 0 }, pmErase cid pending)
    ∧ execute cfg2 webMode reg req.tool_name req.parameters ans now pending2
      = Except.ok ({ tool_name := req.tool_name, parameters := req.parameters,
                     success := true, data := s, error_code := none, error_message := none,
                     execution_time := 0 }, pending2) := by
  have hne : s.isEmpty = false := by
    cases s with
    | nil => simp [List.isPrefixOf] at hpre
    | cons c cs => rfl
  constructor
  · unfold executeConfirmedTool
    simp only [hpend, hreg]
    unfold invokeHandler
    rw [hh]
    unfold validateAndFormatResult
    simp only [hne, hpre, Bool.not_false, Bool.and_true, Bool.true_and]
    rfl
  · rw [execute_policy_allow cfg2 webMode reg req.tool_name req.parameters ans now pending2
      info hreg hpol]
    unfold invokeHandler
    rw [hh]
    rfl

/-- A gated tool whose handler reports failure by returning a cross-mark
string. -/
def c10Tool : ToolInfo where
  handler := fun _ => HandlerOutcome.returns (HandlerReturn.hstr "❌ 操作失败".toList)
  sigParams := []
  description := "demo".toList
  schema := Json.obj []
  requires_confirmation := true
  confirmation_category := "general".toList
  risk_level := "medium".toList

/-- A registry holding only that tool. -/
def c10Reg : Registry := fun n => if n = "t10".toList then some c10Tool else none

/-- A pending approved confirmation for that tool. -/
def c10Req : UserConfirmationRequired where
  tool_name := "t10".toList
  tool_info := c10Tool
  parameters := []
  confirmation_id := "t10_1".toList

/-- The pending store holding the approved confirmation. -/
def c10Pending : PendingMap := [("t10_1".toList, c10Req)]

/-- The default configuration with an allow policy for the tool, so the
direct path runs the handler without prompting. -/
def c10AllowCfg : Config := setToolPolicy defaultConfig "t10".toList "allow".toList

/-- Witness for the rewrite theorem at the concrete tool: the resumed path
reports failure with the returned string as error message, the direct path
reports success with it as data. -/
theorem resumed_vs_direct_rewrite_witness :
    executeConfirmedTool c10Reg c10Pending "t10_1".toList
      = Except.ok ({ tool_name := "t10".toList, parameters := [], success := false,
                     data := [], error_code := some "TOOL_EXECUTION_ERROR".toList,
                     error_message := some "❌ 操作失败".toList, execution_time := 0 },
                   pmErase "t10_1".toList c10Pending)
    ∧ execute c10AllowCfg false c10Reg "t10".toList [] true 0 []
      = Except.ok ({ tool_name := "t10".toList, parameters := [], success := true,
                     data := "❌ 操作失败".toList, error_code := none, error_message := none,
                     execution_time := 0 }, []) :=
  resumed_vs_direct_rewrite c10AllowCfg false c10Reg c10Pending [] "t10_1".toList c10Req
    c10Tool "❌ 操作失败".toList true 0 rfl rfl rfl rfl rfl
